import Mathlib

/-!
# node-sparql-hollandaise: graph patterns and query serialisation

A shallow embedding of `src/sparql/graph-pattern.js` and `src/sparql/query.js`.

* JavaScript objects are mutable; here every method takes the receiver and
  returns the receiver after the call together with the error it raised, if
  any (`Outcome`).  A method that throws before any assignment returns the
  receiver unchanged.
* Index and count arguments are JavaScript numbers; the embedding covers the
  integer ones (`Int`).
* Strings are concatenated exactly as the template literals of the source do.
-/

namespace Sparql

/-! ## Values and errors -/

/-- The classes of this library whose instances can be elements of a pattern.
An allow-list (`allowedTypes`) is a list of these constructors. -/
inductive Category where
  | triple
  | filter
  | graphPattern
  | groupGraphPattern
  deriving DecidableEq, Repr

/-- An object that can sit in the `_elements` array of a pattern.

Modelled from the spec: the classes Triple and Filter (`triple.js`, `filter.js`)
and GroupGraphPattern (`group-graph-pattern.js`) are not part of the sources at
hand.  A Triple or a Filter is an atomic stringifiable value, identified with
the text its `toString()` yields; a GroupGraphPattern has the same structure and
the same operations as a GraphPattern and differs only in its class
(`group = true`).  A nested pattern carries the fields of `GraphPattern`. -/
inductive Element where
  | triple (text : String)
  | filter (text : String)
  | pattern (elements : List Element) (optional alternative : Bool)
      (allowedTypes : List Category) (group : Bool)

/-- The object state of a `GraphPattern` (or, with `group = true`, of a
GroupGraphPattern): `_elements`, `_optional`, `_alternative`, `_allowedTypes`. -/
structure GraphPattern where
  elements : List Element
  optional : Bool
  alternative : Bool
  allowedTypes : List Category
  group : Bool

/-- A JavaScript number, by what a template literal makes of it
(`Number::toString`).  A safe integer (of magnitude up to `2^53 - 1`) is printed
with its decimal digits.  Every other number (a fraction, a value of larger
magnitude, `NaN`, `Infinity`) is given with the text it is printed as, such as
`0.5`, `1e+21` or `NaN`, and with whether it is falsy (`NaN` is). -/
inductive JsNumber where
  | int (n : Int) (safe : n.natAbs ≤ 9007199254740991)
  | other (text : String) (falsy : Bool)

/-- The text a template literal makes of a number. -/
def JsNumber.text : JsNumber → String
  | .int n _ => toString n
  | .other text _ => text

/-- JavaScript truthiness of a number: `0` and `NaN` are falsy. -/
def JsNumber.truthy : JsNumber → Bool
  | .int n _ => n ≠ 0
  | .other _ falsy => !falsy

/-- A JavaScript value as it can be passed to the methods of the library:
`undefined`, `null`, a string, a number, an object of one of the element classes,
or an array of values. -/
inductive Value where
  | undefined
  | null
  | str (s : String)
  | num (n : JsNumber)
  | obj (e : Element)
  | array (items : List Value)

/-- The value of `element.constructor`: a class of the library, or the built-in
constructor of a string, a number or an array. -/
inductive Constructor where
  | category (c : Category)
  | string
  | number
  | array
  deriving DecidableEq, Repr

/-- What a method can throw.  `error msg` is `throw new Error(msg)` of the
source.  `notAllowed c` is the error of `addElement`,
`new Error('TypeError: Element of type ' + c + ' is not allowed for this block.')`:
the template literal puts the source text of the constructor function `c` into
the message (`function Number() { [native code] }` for a number), a text that
depends on the class source and on the build, so this error is kept by its
constructor and not by a complete message.  `native msg` is a `TypeError`
raised by the runtime itself (a property access on `null` or `undefined`). -/
inductive Err where
  | error (message : String)
  | notAllowed (constructor : Constructor)
  | native (message : String)
  deriving DecidableEq, Repr

/-- The receiver after a call, and the error the call raised (if it raised). -/
abbrev Outcome (σ : Type) := σ × Option Err

/-- The error kinds of the library are encoded in the message of a plain
`Error`: `new Error('TypeError: ...')`, `new Error('OutOfBounds: ...')`.  The
message of `notAllowed` starts with `TypeError: Element of type `, which decides
its kind for every kind name shorter than that fixed part. -/
def Err.hasKind (kind : String) : Err → Bool
  | .error message => (kind ++ ":").data.isPrefixOf message.data
  | .notAllowed _ => (kind ++ ":").data.isPrefixOf "TypeError: Element of type ".data
  | .native _ => false

/-- The error is of TypeError kind. -/
def Err.isTypeErrorKind (e : Err) : Bool := e.hasKind "TypeError"

/-- The error is of OutOfBounds kind. -/
def Err.isOutOfBoundsKind (e : Err) : Bool := e.hasKind "OutOfBounds"

/-- The nested pattern object as an element. -/
def GraphPattern.toElement (p : GraphPattern) : Element :=
  .pattern p.elements p.optional p.alternative p.allowedTypes p.group

/-- The constructor of an object (`element.constructor`). -/
def Element.category : Element → Category
  | .triple _ => .triple
  | .filter _ => .filter
  | .pattern _ _ _ _ false => .graphPattern
  | .pattern _ _ _ _ true => .groupGraphPattern

/-- The test `element instanceof Triple`. -/
def Element.isTriple : Element → Bool
  | .triple _ => true
  | _ => false

/-- Modelled from the spec: `new Triple(text)` for a bare string; the class
Triple is not part of the sources at hand.  The text of the Triple is the
string it was built from. -/
def Triple.ofString (text : String) : Element := .triple text

/-- JavaScript truthiness (`if (value)`). -/
def Value.truthy : Value → Bool
  | .undefined => false
  | .null => false
  | .str s => s ≠ ""
  | .num n => n.truthy
  | .obj _ => true
  | .array _ => true

/-! ## Array primitives -/

/-- The loop behind `Array.prototype.indexOf`, counting from `i`. -/
def indexOfFrom {α : Type} [DecidableEq α] (x : α) : List α → Int → Int
  | [], _ => -1
  | y :: ys, i => if y = x then i else indexOfFrom x ys (i + 1)

/-- The method `Array.prototype.indexOf`: the first index of `x`, or `-1`. -/
def indexOf {α : Type} [DecidableEq α] (xs : List α) (x : α) : Int :=
  indexOfFrom x xs 0

/-- The method `Array.prototype.splice(start, deleteCount, ...items)` on integer
arguments: a negative `start` counts from the end, `start` is clamped to
`[0, length]`, `deleteCount` is clamped to `[0, length - start]`. -/
def splice {α : Type} (xs : List α) (start deleteCount : Int) (items : List α) : List α :=
  let len : Int := xs.length
  let s : Nat := if start < 0 then (max (len + start) 0).toNat else (min start len).toNat
  let d : Nat := (min (max deleteCount 0) (len - s)).toNat
  xs.take s ++ items ++ xs.drop (s + d)

/-- The method `Array.prototype.join(sep)` on an array of strings. -/
def join (sep : String) : List String → String
  | [] => ""
  | [x] => x
  | x :: y :: rest => x ++ sep ++ join sep (y :: rest)

/-! ## GraphPattern (`graph-pattern.js`) -/

namespace GraphPattern

/-- The method `countElements()`. -/
def countElements (p : GraphPattern) : Int := p.elements.length

/-- The method `getElements()`. -/
def getElements (p : GraphPattern) : List Element := p.elements

/-- The method `clear()`. -/
def clear (p : GraphPattern) : GraphPattern := { p with elements := [] }

/-- The method `addElement(element, atIndex)`; the default of `atIndex` is `-1`.
A string is first promoted to a Triple, so the branch for a string after the
promotion is never taken.  A number or an array has a constructor (`Number`,
`Array`) that is no element class, so it is in no allow-list.  The error names
the constructor of the rejected element (see `Err.notAllowed`). -/
def addElement (p : GraphPattern) (element : Value) (atIndex : Int) : Outcome GraphPattern :=
  let element := match element with
    | .str s => Value.obj (Triple.ofString s)
    | v => v
  match element with
  | .undefined => (p, some (.native "Cannot read property constructor of undefined"))
  | .null => (p, some (.native "Cannot read property constructor of null"))
  | .obj e =>
    if indexOf p.allowedTypes e.category > -1 then
      ({ p with elements :=
          splice p.elements (if atIndex < 0 then p.countElements else atIndex) 0 [e] }, none)
    else
      (p, some (.notAllowed (.category e.category)))
  | .str _ => (p, some (.notAllowed .string))
  | .num _ => (p, some (.notAllowed .number))
  | .array _ => (p, some (.notAllowed .array))

/-- The method `removeElements(atIndex, count)`; the defaults are `0` and `1`. -/
def removeElements (p : GraphPattern) (atIndex count : Int) : Outcome GraphPattern :=
  if atIndex ≥ 0 ∧ atIndex + count < p.countElements then
    ({ p with elements := splice p.elements atIndex count [] }, none)
  else
    (p, some (.error
      "OutOfBounds: Cannot remove elements from block, index and/or count out of bounds."))

/-- The loop `for (i ...) this.addElement(elements[i])` of the constructor; it
stops at the first call that throws. -/
def addElements : GraphPattern → List Value → Outcome GraphPattern
  | p, [] => (p, none)
  | p, v :: vs =>
    match p.addElement v (-1) with
    | (p1, none) => addElements p1 vs
    | (p1, some e) => (p1, some e)

/-- The constructor `new GraphPattern(elements, optional, alternative, allowedTypes)`.
When an `addElement` call throws, the constructor throws and no object results. -/
def create (elements : Value) (optional alternative : Bool) (allowedTypes : List Category) :
    Except Err GraphPattern :=
  let this : GraphPattern :=
    { elements := [], optional := optional, alternative := alternative,
      allowedTypes := allowedTypes, group := false }
  match elements with
  | .array items =>
    match this.addElements items with
    | (p, none) => .ok p
    | (_, some e) => .error e
  | v =>
    if v.truthy then
      match this.addElement v (-1) with
      | (p, none) => .ok p
      | (_, some e) => .error e
    else .ok this

/-- The default allow-list of the constructor, `[Triple, Filter]`. -/
def defaultAllowedTypes : List Category := [.triple, .filter]

/-- The first line of `toString()`: the optional and union keywords and the
opening brace. -/
def header (optional alternative : Bool) : String :=
  (if optional then "OPTIONAL " else "") ++ (if alternative then "UNION " else "") ++ "\x7b "

end GraphPattern

mutual
/-- The method `toString()` of an element: the text of a Triple or Filter, and
for a nested pattern the method `GraphPattern.toString` of the source. -/
def Element.toString : Element → String
  | .triple text => text
  | .filter text => text
  | .pattern elements optional alternative _ _ =>
    renderLoop elements (GraphPattern.header optional alternative) ++ " \x7d "
/-- The loop of `GraphPattern.toString`: for each element in turn,
`result += element.toString() + ' ' + (element instanceof Triple ? '. ' : '')`. -/
def renderLoop : List Element → String → String
  | [], result => result
  | e :: es, result =>
    renderLoop es (result ++ (e.toString ++ " " ++ (if e.isTriple then ". " else "")))
end

/-- The method `GraphPattern.toString()`. -/
def GraphPattern.toString (p : GraphPattern) : String :=
  renderLoop p.elements (GraphPattern.header p.optional p.alternative) ++ " \x7d "

/-- The element as a pattern object, when it is one
(`content instanceof GraphPattern || content instanceof GroupGraphPattern`). -/
def Element.asPattern : Element → Option GraphPattern
  | .pattern elements optional alternative allowedTypes group =>
    some (GraphPattern.mk elements optional alternative allowedTypes group)
  | _ => none

/-! ## Query (`query.js`) -/

/-- Modelled from the spec: a prefix declaration object (`prefix.js` is not part
of the sources at hand), an opaque stringifiable value built from a string. -/
structure Prefix where
  content : String
  deriving DecidableEq, Repr

/-- Modelled from the spec: the query-form value objects of `query-types.js`
(not part of the sources at hand), each built from the arguments of its
setter. -/
inductive QueryForm where
  | select (content modifier : Value)
  | describe (content : Value)
  | ask
  | construct (triples : Value)

/-- Modelled from the spec: the `toString()` of the collaborator classes that
are not part of the sources at hand (prefix declarations and query forms).
Their texts are opaque to the query, so they are parameters of the
serialisation. -/
structure Collaborators where
  prefixText : Prefix → String
  formText : QueryForm → String

/-- The argument of `addPrefix`: a Prefix object, a string, or anything else. -/
inductive PrefixArg where
  | obj (p : Prefix)
  | str (s : String)
  | other

/-- The argument of the method `prefix`: an array or a single value. -/
inductive PrefixInput where
  | array (items : List PrefixArg)
  | single (item : PrefixArg)

/-- The object `_config` of a query, as `reset()` lays it out. -/
structure Config where
  base : Option String
  prefixes : List Prefix
  query : Option QueryForm
  datasetClause : List String
  whereClause : Option GraphPattern
  solutionModifiers : List String

/-- Modelled from the spec: the transport collaborator (`transport.js` is not
part of the sources at hand), bound to an endpoint. -/
structure Transport where
  endpoint : String
  deriving DecidableEq, Repr

/-- The object state of a `SparqlQuery`: `_config` and `_transport`. -/
structure Query where
  config : Config
  transport : Transport

/-- The configuration that `reset()` assigns. -/
def Config.empty : Config :=
  { base := none, prefixes := [], query := none, datasetClause := [],
    whereClause := none, solutionModifiers := [] }

mutual
/-- The string a template literal makes of a value. -/
def Value.text : Value → String
  | .undefined => "undefined"
  | .null => "null"
  | .str s => s
  | .num n => n.text
  | .obj e => e.toString
  | .array items => Value.joinItems items
/-- The default `Array.prototype.toString`: the items joined by a comma, `null`
and `undefined` giving the empty string. -/
def Value.joinItems : List Value → String
  | [] => ""
  | [v] => Value.itemText v
  | v :: w :: rest => Value.itemText v ++ "," ++ Value.joinItems (w :: rest)
/-- The text of one item of an array that is turned into a string. -/
def Value.itemText : Value → String
  | .undefined => ""
  | .null => ""
  | .str s => s
  | .num n => n.text
  | .obj e => e.toString
  | .array items => Value.joinItems items
end

/-- The operator `typeof`. -/
def Value.typeof : Value → String
  | .undefined => "undefined"
  | .null => "object"
  | .str _ => "string"
  | .num _ => "number"
  | .obj _ => "object"
  | .array _ => "object"

namespace Query

/-- The method `reset()`. -/
def reset (q : Query) : Query := { q with config := Config.empty }

/-- The constructor `new SparqlQuery(endpoint)`. -/
def create (endpoint : String) : Query :=
  { config := Config.empty, transport := { endpoint := endpoint } }

/-- The method `base(content)`. -/
def base (q : Query) (content : String) : Query :=
  { q with config := { q.config with base := some content } }

/-- The method `addPrefix(content)`. -/
def addPrefix (q : Query) (content : PrefixArg) : Query :=
  match content with
  | .obj p => { q with config := { q.config with prefixes := q.config.prefixes ++ [p] } }
  | .str s =>
    let p := Prefix.mk s
    { q with config := { q.config with prefixes := q.config.prefixes ++ [p] } }
  | .other => q

/-- The method `prefix(content)`. -/
def prefix_ (q : Query) (content : PrefixInput) : Query :=
  match content with
  | .array items => items.foldl addPrefix q
  | .single item => q.addPrefix item

/-- The method `getPrefixes()`. -/
def getPrefixes (q : Query) : List Prefix := q.config.prefixes

/-- The method `clearPrefixes()`. -/
def clearPrefixes (q : Query) : Query :=
  { q with config := { q.config with prefixes := [] } }

/-- The method `select(content, modifier)`. -/
def select (q : Query) (content modifier : Value) : Query :=
  { q with config := { q.config with query := some (.select content modifier) } }

/-- The method `describe(content)`. -/
def describe (q : Query) (content : Value) : Query :=
  { q with config := { q.config with query := some (.describe content) } }

/-- The method `ask()`. -/
def ask (q : Query) : Query :=
  { q with config := { q.config with query := some .ask } }

/-- The method `construct(triples)`. -/
def construct (q : Query) (triples : Value) : Query :=
  { q with config := { q.config with query := some (.construct triples) } }

/-- One `push` of the method `from`: the clause text for one item. -/
def pushDatasetClause (q : Query) (named : Bool) (item : Value) : Query :=
  let clause := "FROM" ++ (if named then " NAMED" else "") ++ " " ++ item.text
  { q with config := { q.config with datasetClause := q.config.datasetClause ++ [clause] } }

/-- The method `from(content, named)`.  In the branch for a value that is not an
array the source reads `content[i]` with the loop variable `i`, which is
`undefined` there: the property lookup yields `undefined` on every value but
`null` and `undefined`, on which it throws. -/
def from_ (q : Query) (content : Value) (named : Bool) : Outcome Query :=
  match content with
  | .array items => (items.foldl (fun acc item => acc.pushDatasetClause named item) q, none)
  | .undefined => (q, some (.native "Cannot read property undefined of undefined"))
  | .null => (q, some (.native "Cannot read property undefined of null"))
  | _ => (q.pushDatasetClause named .undefined, none)

/-- The method `getDatasetClauses()`. -/
def getDatasetClauses (q : Query) : List String := q.config.datasetClause

/-- The method `clearDatasetClauses()`. -/
def clearDatasetClauses (q : Query) : Query :=
  { q with config := { q.config with datasetClause := [] } }

/-- The method `setWhereClause(graphPattern)`. -/
def setWhereClause (q : Query) (graphPattern : Value) : Outcome Query :=
  match graphPattern with
  | .obj (.pattern elements optional alternative allowedTypes group) =>
    let p := GraphPattern.mk elements optional alternative allowedTypes group
    ({ q with config := { q.config with whereClause := some p } }, none)
  | _ => (q, some (.error "TypeError: Where clause must be a graph pattern."))

/-- The method `addToWhereClause(content, atIndex)`; the default of `atIndex`
is `-1`. -/
def addToWhereClause (q : Query) (content : Value) (atIndex : Int) : Outcome Query :=
  match q.config.whereClause with
  | none =>
    match GraphPattern.create content false false GraphPattern.defaultAllowedTypes with
    | .ok p => ({ q with config := { q.config with whereClause := some p } }, none)
    | .error e => (q, some e)
  | some w =>
    match w.addElement content atIndex with
    | (w1, err) => ({ q with config := { q.config with whereClause := some w1 } }, err)

/-- The loop of the method `where` over an array: one `addToWhereClause` per
item, stopped by the first call that throws. -/
def addAllToWhereClause : Query → List Value → Outcome Query
  | q, [] => (q, none)
  | q, v :: vs =>
    match q.addToWhereClause v (-1) with
    | (q1, none) => addAllToWhereClause q1 vs
    | (q1, some e) => (q1, some e)

/-- The method `where(content)`. -/
def where_ (q : Query) (content : Value) : Outcome Query :=
  match content with
  | .array items => q.addAllToWhereClause items
  | .obj (.pattern elements optional alternative allowedTypes group) =>
    q.setWhereClause (.obj (.pattern elements optional alternative allowedTypes group))
  | v => q.addToWhereClause v (-1)

/-- The method `removeFromWhereClause(atIndex, count)`; the defaults are `0`
and `1`. -/
def removeFromWhereClause (q : Query) (atIndex count : Int) : Outcome Query :=
  match q.config.whereClause with
  | none => (q, some (.native "Cannot read property removeElements of null"))
  | some w =>
    match w.removeElements atIndex count with
    | (w1, err) => ({ q with config := { q.config with whereClause := some w1 } }, err)

/-- The method `clearWhereClause()`. -/
def clearWhereClause (q : Query) : Outcome Query :=
  match q.config.whereClause with
  | none => (q, some (.native "Cannot read property clear of null"))
  | some w => ({ q with config := { q.config with whereClause := some w.clear } }, none)

/-- The method `getWhereClause()`. -/
def getWhereClause (q : Query) : Except Err (List Element) :=
  match q.config.whereClause with
  | none => .error (.native "Cannot read property getElements of null")
  | some w => .ok w.getElements

/-- The method `getWhereClauseCount()`. -/
def getWhereClauseCount (q : Query) : Except Err Int :=
  match q.config.whereClause with
  | none => .error (.native "Cannot read property countElements of null")
  | some w => .ok w.countElements

/-- The statement `this._config.solutionModifiers.push(modifier)`, completing
without an error. -/
def pushSolutionModifier (q : Query) (modifier : String) : Outcome Query :=
  ({ q with config :=
      { q.config with solutionModifiers := q.config.solutionModifiers ++ [modifier] } }, none)

/-- The method `order(content)`. -/
def order (q : Query) (content : Value) : Outcome Query :=
  match content with
  | .str s => q.pushSolutionModifier ("ORDER BY " ++ s)
  | v => (q, some (.error ("Input for ORDER must be string but is " ++ v.typeof ++ ".")))

/-- The method `limit(count)`. -/
def limit (q : Query) (count : Value) : Outcome Query :=
  match count with
  | .num n => q.pushSolutionModifier ("LIMIT " ++ n.text)
  | v => (q, some (.error ("Input for LIMIT must be number but is " ++ v.typeof ++ ".")))

/-- The method `offset(count)`. -/
def offset (q : Query) (count : Value) : Outcome Query :=
  match count with
  | .num n => q.pushSolutionModifier ("OFFSET " ++ n.text)
  | v => (q, some (.error ("Input for OFFSET must be number but is " ++ v.typeof ++ ".")))

/-- The error of `toString()` for a missing query form. -/
def errNoQueryForm : Err := .error "TypeError: Query type must be defined."

/-- The error of `toString()` for a missing where clause. -/
def errNoWhereClause : Err := .error "TypeError: Where clause is not defined!"

/-- The method `toString()`.  The two tests `instanceof Array` of the source hold
for every value of the fields `datasetClause` and `solutionModifiers`: the
methods of the class only ever assign `[]` to them and push onto them. -/
def toString (C : Collaborators) (q : Query) : Except Err String :=
  let queryString := ""
  let queryString :=
    match q.config.base with
    | some b => if b ≠ "" then queryString ++ ("BASE " ++ b) else queryString
    | none => queryString
  let queryString :=
    q.config.prefixes.foldl (fun acc p => acc ++ (C.prefixText p ++ " ")) queryString
  match q.config.query with
  | none => .error errNoQueryForm
  | some form =>
    let queryString := queryString ++ C.formText form
    let queryString := queryString ++ (join " " q.config.datasetClause ++ " ")
    match q.config.whereClause with
    | none => .error errNoWhereClause
    | some w =>
      let queryString := queryString ++ ("WHERE " ++ w.toString)
      .ok (q.config.solutionModifiers.foldl (fun acc m => acc ++ (m ++ " ")) queryString)

end Query

/-- A call of one of the mutating methods of a query, with its arguments. -/
inductive Call where
  | reset
  | base (content : String)
  | prefix_ (content : PrefixInput)
  | addPrefix (content : PrefixArg)
  | clearPrefixes
  | select (content modifier : Value)
  | describe (content : Value)
  | ask
  | construct (triples : Value)
  | from_ (content : Value) (named : Bool)
  | clearDatasetClauses
  | where_ (content : Value)
  | setWhereClause (graphPattern : Value)
  | addToWhereClause (content : Value) (atIndex : Int)
  | removeFromWhereClause (atIndex count : Int)
  | clearWhereClause
  | order (content : Value)
  | limit (count : Value)
  | offset (count : Value)

/-- The query after a call of a mutating method, and the error the call raised.
The methods that contain no `throw` and no property access that can fail
complete without an error. -/
def Query.call (q : Query) : Call → Outcome Query
  | .reset => (q.reset, none)
  | .base content => (q.base content, none)
  | .prefix_ content => (q.prefix_ content, none)
  | .addPrefix content => (q.addPrefix content, none)
  | .clearPrefixes => (q.clearPrefixes, none)
  | .select content modifier => (q.select content modifier, none)
  | .describe content => (q.describe content, none)
  | .ask => (q.ask, none)
  | .construct triples => (q.construct triples, none)
  | .from_ content named => q.from_ content named
  | .clearDatasetClauses => (q.clearDatasetClauses, none)
  | .where_ content => q.where_ content
  | .setWhereClause graphPattern => q.setWhereClause graphPattern
  | .addToWhereClause content atIndex => q.addToWhereClause content atIndex
  | .removeFromWhereClause atIndex count => q.removeFromWhereClause atIndex count
  | .clearWhereClause => q.clearWhereClause
  | .order content => q.order content
  | .limit count => q.limit count
  | .offset count => q.offset count

/-! ## Vocabulary of the specification

The definitions below are not translations of source code.  They name the
notions the properties are stated with. -/

/-- The concatenation of a list of strings, in order. -/
def concatAll : List String → String
  | [] => ""
  | x :: xs => x ++ concatAll xs

/-- The element a value stands for in a pattern: an element object itself, and
for a bare string the Triple it is promoted to.  Other values stand for no
element. -/
def Value.asElement : Value → Option Element
  | .str s => some (Triple.ofString s)
  | .obj e => some e
  | _ => none

/-- The category of the value is in the allow-list of the pattern. -/
def GraphPattern.allows (p : GraphPattern) (v : Value) : Bool :=
  match v.asElement with
  | some e => decide (e.category ∈ p.allowedTypes)
  | none => false

/-- The inner text of a pattern as claim C3 words it: the text of each element,
that of a Triple immediately followed by the separator, that of any other
element followed by nothing. -/
def GraphPattern.claimedInner (es : List Element) : String :=
  concatAll (es.map (fun e => e.toString ++ (if e.isTriple then ". " else "")))

/-- The number of occurrences of the segment `seg` in a text: the number of
positions of the text at which `seg` starts. -/
def occurrences (seg : List Char) : List Char → Nat
  | [] => if seg.isPrefixOf [] then 1 else 0
  | c :: cs => (if seg.isPrefixOf (c :: cs) then 1 else 0) + occurrences seg cs

/-- A concrete rendering of the collaborators, to evaluate the serialisation on
concrete inputs.  Any other rendering would do. -/
def Collaborators.sample : Collaborators :=
  { prefixText := fun p => "PREFIX " ++ p.content
    formText := fun f =>
      match f with
      | .select content _ => "SELECT " ++ content.text
      | .describe content => "DESCRIBE " ++ content.text
      | .ask => "ASK"
      | .construct triples => "CONSTRUCT " ++ triples.text }

/-- The serialisation of a query as claim C1 words it, for a query whose query
form is `form` and whose where clause is `w`: the six parts in their fixed
order, the first being `BASE` and the base IRI whenever a base is set. -/
def Query.claimedText (C : Collaborators) (q : Query) (form : QueryForm) (w : GraphPattern) :
    String :=
  (match q.config.base with
    | some b => "BASE " ++ b
    | none => "")
  ++ concatAll (q.config.prefixes.map (fun p => C.prefixText p ++ " "))
  ++ C.formText form
  ++ (join " " q.config.datasetClause ++ " ")
  ++ ("WHERE " ++ w.toString)
  ++ concatAll (q.config.solutionModifiers.map (fun m => m ++ " "))

/-- A single value in the sense of claim C10: a non-empty string, a Triple or a
Filter. -/
def Value.isSingle : Value → Bool
  | .str s => s ≠ ""
  | .obj (.triple _) => true
  | .obj (.filter _) => true
  | _ => false

/-- The calls `where(x)` for each `x` of a list, in list order; as in the
source language, the first call that throws ends the sequence. -/
def Query.whereEach : Query → List Value → Outcome Query
  | q, [] => (q, none)
  | q, v :: vs =>
    match q.where_ v with
    | (q1, none) => Query.whereEach q1 vs
    | (q1, some e) => (q1, some e)

/-- The query `q` with the where clause `w`, everything else as in `q`. -/
def Query.withWhereClause (q : Query) (w : GraphPattern) : Query :=
  { q with config := { q.config with whereClause := some w } }

/-- The queries `q` and `r` agree on everything but the where clause: base,
prefixes, query form, dataset clauses, solution modifiers and transport. -/
def Query.sameOutsideWhere (q r : Query) : Prop :=
  r.config.base = q.config.base ∧
  r.config.prefixes = q.config.prefixes ∧
  r.config.query = q.config.query ∧
  r.config.datasetClause = q.config.datasetClause ∧
  r.config.solutionModifiers = q.config.solutionModifiers ∧
  r.transport = q.transport

/-! ## Callers: sequences of calls, return values, chains -/

/-- A call of one of the mutating methods of a pattern, with its arguments. -/
inductive PatternCall where
  | addElement (element : Value) (atIndex : Int)
  | removeElements (atIndex count : Int)
  | clear

/-- The pattern after a call of a mutating method, and the error the call
raised. -/
def GraphPattern.call (p : GraphPattern) : PatternCall → Outcome GraphPattern
  | .addElement element atIndex => p.addElement element atIndex
  | .removeElements atIndex count => p.removeElements atIndex count
  | .clear => (p.clear, none)

/-- The pattern after a sequence of calls of mutating methods, each of which
completes or raises (a caller can catch the error and go on). -/
def GraphPattern.run : GraphPattern → List PatternCall → GraphPattern
  | p, [] => p
  | p, c :: cs => GraphPattern.run (p.call c).1 cs

/-- The pattern after a sequence of `removeElements(atIndex, count)` calls, each
of which completes or raises. -/
def GraphPattern.removeEach : GraphPattern → List (Int × Int) → GraphPattern
  | p, [] => p
  | p, (atIndex, count) :: rest => GraphPattern.removeEach (p.removeElements atIndex count).1 rest

/-- What a method hands back when it completes: the query it was called on
(`return this`), or `undefined` (no `return` statement). -/
inductive Returned where
  | self
  | undefined
  deriving DecidableEq, Repr

/-- The value each mutating method of `query.js` returns when it completes:
`prefix`, `select`, `describe`, `ask`, `construct`, `from`, `where`, `order`,
`limit` and `offset` end with `return this`; the other methods have no `return`
statement. -/
def Call.returned : Call → Returned
  | .reset => .undefined
  | .base _ => .undefined
  | .prefix_ _ => .self
  | .addPrefix _ => .undefined
  | .clearPrefixes => .undefined
  | .select _ _ => .self
  | .describe _ => .self
  | .ask => .self
  | .construct _ => .self
  | .from_ _ _ => .self
  | .clearDatasetClauses => .undefined
  | .where_ _ => .self
  | .setWhereClause _ => .undefined
  | .addToWhereClause _ _ => .undefined
  | .removeFromWhereClause _ _ => .undefined
  | .clearWhereClause => .undefined
  | .order _ => .self
  | .limit _ => .self
  | .offset _ => .self

/-- A chain `q.m1(...).m2(...)...`: each method is called on what the previous
one returned.  A call that raises ends the chain; a method called on
`undefined` raises the `TypeError` of the runtime. -/
def Query.chain : Query → List Call → Outcome Query
  | q, [] => (q, none)
  | q, c :: cs =>
    match q.call c with
    | (q1, some e) => (q1, some e)
    | (q1, none) =>
      match cs with
      | [] => (q1, none)
      | _ :: _ =>
        match c.returned with
        | .self => Query.chain q1 cs
        | .undefined => (q1, some (.native "Cannot read property of undefined"))

/-! ## Vocabulary of the specification, continued -/

/-- The calls of a list made one after the other on the same query; the first
call that raises ends the sequence. -/
def Query.callEach : Query → List Call → Outcome Query
  | q, [] => (q, none)
  | q, c :: cs =>
    match q.call c with
    | (q1, some e) => (q1, some e)
    | (q1, none) => Query.callEach q1 cs

/-- The ten builder methods that the amended claim C16 names: `prefix`,
`select`, `describe`, `ask`, `construct`, `from`, `where`, `order`, `limit`,
`offset`. -/
def Call.isBuilder : Call → Bool
  | .prefix_ _ => true
  | .select _ _ => true
  | .describe _ => true
  | .ask => true
  | .construct _ => true
  | .from_ _ _ => true
  | .where_ _ => true
  | .order _ => true
  | .limit _ => true
  | .offset _ => true
  | _ => false

/-- The value is a JavaScript array. -/
def Value.isArray : Value → Bool
  | .array _ => true
  | _ => false

/-- The query `q` with the solution modifiers `ms`, everything else as in `q`. -/
def Query.withSolutionModifiers (q : Query) (ms : List String) : Query :=
  { q with config := { q.config with solutionModifiers := ms } }

/-- The query `q` with the dataset clauses `ds`, everything else as in `q`. -/
def Query.withDatasetClause (q : Query) (ds : List String) : Query :=
  { q with config := { q.config with datasetClause := ds } }

/-- The empty pattern with the given flags and allow-list, as the constructor
sets it up before it adds elements. -/
def GraphPattern.emptyWith (optional alternative : Bool) (allowedTypes : List Category) :
    GraphPattern :=
  { elements := [], optional := optional, alternative := alternative,
    allowedTypes := allowedTypes, group := false }

/-- The construction as claim C14 words it: start from a pattern and call
`addElement` with the default index on each input in input order; the first
call that raises makes the whole construction raise. -/
def GraphPattern.addEach (p : GraphPattern) (inputs : List Value) : Except Err GraphPattern :=
  inputs.foldlM
    (fun acc x =>
      match acc.addElement x (-1) with
      | (p1, none) => Except.ok p1
      | (_, some e) => Except.error e)
    p

mutual
/-- The number of pattern nodes in an element: none in a Triple or Filter, and
in a nested pattern that pattern and the pattern nodes below it. -/
def Element.patternNodes : Element → Nat
  | .triple _ => 0
  | .filter _ => 0
  | .pattern elements _ _ _ _ => 1 + patternNodesOfList elements
/-- The number of pattern nodes in a list of elements. -/
def patternNodesOfList : List Element → Nat
  | [] => 0
  | e :: es => e.patternNodes + patternNodesOfList es
end

/-- The number of pattern nodes of a pattern tree: its root and the pattern
nodes below it. -/
def GraphPattern.patternNodes (p : GraphPattern) : Nat := 1 + patternNodesOfList p.elements

/-- The text holds no brace character. -/
def braceFree (text : String) : Bool :=
  !text.data.contains '\x7b' && !text.data.contains '\x7d'

mutual
/-- The texts of the leaves (Triples and Filters) of an element hold no brace
character. -/
def Element.leavesBraceFree : Element → Bool
  | .triple text => braceFree text
  | .filter text => braceFree text
  | .pattern elements _ _ _ _ => leavesBraceFreeList elements
/-- The texts of the leaves of a list of elements hold no brace character. -/
def leavesBraceFreeList : List Element → Bool
  | [] => true
  | e :: es => e.leavesBraceFree && leavesBraceFreeList es
end

/-- Balanced braces: as many opening as closing braces, and no prefix of the
text holds more closing than opening braces. -/
def Balanced (text : List Char) : Prop :=
  text.count '\x7b' = text.count '\x7d' ∧
  ∀ k : Nat, (text.take k).count '\x7d' ≤ (text.take k).count '\x7b'

/-- The invariant of claim C13: every element has a category of the allow-list
`al`, and the allow-list and the flags of the pattern are `al`, `o` and `a`. -/
def GraphPattern.Conforms (o a : Bool) (al : List Category) (p : GraphPattern) : Prop :=
  (∀ e ∈ p.elements, e.category ∈ al) ∧ p.allowedTypes = al ∧ p.optional = o ∧
    p.alternative = a

/-- The serialisation of a query as the amended claim C1 words it, for a query
whose query form is `form` and whose where clause is `w`: the six parts in
their fixed order, the first being `BASE` and the base IRI when a non-empty base
is set, and nothing when no base is set or the base is the empty string. -/
def Query.serialisedText (C : Collaborators) (q : Query) (form : QueryForm)
    (w : GraphPattern) : String :=
  (match q.config.base with
    | some b => if b = "" then "" else "BASE " ++ b
    | none => "")
  ++ concatAll (q.config.prefixes.map (fun p => C.prefixText p ++ " "))
  ++ C.formText form
  ++ (join " " q.config.datasetClause ++ " ")
  ++ ("WHERE " ++ w.toString)
  ++ concatAll (q.config.solutionModifiers.map (fun m => m ++ " "))

/-- The query `q` without a base, everything else as in `q`. -/
def Query.withoutBase (q : Query) : Query :=
  { q with config := { q.config with base := none } }

/-- The number 42. -/
def JsNumber.fortyTwo : JsNumber := .int 42 (by decide)

/-- The number 10. -/
def JsNumber.ten : JsNumber := .int 10 (by decide)

/-- A query with a base, a prefix, a query form, a dataset clause, a where
clause of two elements and a solution modifier, to evaluate the methods on a
configuration in which no part has its initial value. -/
def Query.sample : Query :=
  { config :=
      { base := some "<http://example.org/>"
        prefixes := [Prefix.mk "ex: <http://example.org/ns#>"]
        query := some QueryForm.ask
        datasetClause := ["FROM <http://example.org/g>"]
        whereClause := some (GraphPattern.mk [.triple "?s ?p ?o", .filter "FILTER(?o > 1)"]
          false false [.triple, .filter] false)
        solutionModifiers := ["LIMIT 10"] }
    transport := { endpoint := "http://example.org/sparql" } }

/-! ## Array primitives: lemmas -/

theorem indexOfFrom_gt {α : Type} [DecidableEq α] (x : α) (xs : List α) (i : Int) (hi : 0 ≤ i) :
    indexOfFrom x xs i > -1 ↔ x ∈ xs := by
  induction xs generalizing i with
  | nil => simp [indexOfFrom]
  | cons y ys ih =>
    unfold indexOfFrom
    by_cases h : y = x
    · subst h; simp; omega
    · have h2 : ¬ x = y := fun e => h e.symm
      simp [h, h2, ih (i + 1) (by omega)]

theorem indexOf_gt {α : Type} [DecidableEq α] (x : α) (xs : List α) :
    indexOf xs x > -1 ↔ x ∈ xs := indexOfFrom_gt x xs 0 (le_refl 0)

theorem splice_eq {α : Type} (xs : List α) (start deleteCount : Int) (items : List α)
    (s d : Nat)
    (hs : (if start < 0 then (max ((xs.length : Int) + start) 0).toNat
      else (min start (xs.length : Int)).toNat) = s)
    (hd : (min (max deleteCount 0) ((xs.length : Int) - (s : Int))).toNat = d) :
    splice xs start deleteCount items = xs.take s ++ items ++ xs.drop (s + d) := by
  unfold splice
  subst hs
  subst hd
  rfl

theorem splice_insert {α : Type} (xs : List α) (i : Int) (e : α) (h0 : 0 ≤ i)
    (h1 : i ≤ xs.length) :
    splice xs i 0 [e] = xs.take i.toNat ++ e :: xs.drop i.toNat := by
  rw [splice_eq xs i 0 [e] i.toNat 0 (by rw [if_neg (by omega)]; congr 1; omega) (by omega)]
  simp

theorem splice_remove {α : Type} (xs : List α) (a c : Int) (h0 : 0 ≤ a) (hc : 0 ≤ c)
    (h1 : a + c < xs.length) :
    splice xs a c [] = xs.take a.toNat ++ xs.drop (a + c).toNat := by
  rw [splice_eq xs a c [] a.toNat c.toNat (by rw [if_neg (by omega)]; congr 1; omega) (by omega)]
  have : a.toNat + c.toNat = (a + c).toNat := by omega
  simp [this]

/-! ## GraphPattern: lemmas -/

theorem renderLoop_eq (es : List Element) (result : String) :
    renderLoop es result = result ++ concatAll
      (es.map (fun e => e.toString ++ " " ++ (if e.isTriple then ". " else ""))) := by
  induction es generalizing result with
  | nil => simp [renderLoop, concatAll]
  | cons e es ih => simp [renderLoop, concatAll, ih, String.append_assoc]

theorem pattern_toString_eq (p : GraphPattern) :
    p.toString = GraphPattern.header p.optional p.alternative ++ concatAll
      (p.elements.map (fun e => e.toString ++ " " ++ (if e.isTriple then ". " else "")))
      ++ " \x7d " := by
  simp [GraphPattern.toString, renderLoop_eq]

theorem addElement_allowed (p : GraphPattern) (v : Value) (e : Element) (i : Int)
    (hv : v.asElement = some e) (ha : e.category ∈ p.allowedTypes) :
    p.addElement v i =
      ({ p with elements := splice p.elements (if i < 0 then p.countElements else i) 0 [e] },
        none) := by
  cases v <;> simp [Value.asElement] at hv <;> subst hv <;>
    simp [GraphPattern.addElement, indexOf_gt, ha]

theorem addElement_rejected (p : GraphPattern) (v : Value) (e : Element) (i : Int)
    (hv : v.asElement = some e) (ha : e.category ∉ p.allowedTypes) :
    p.addElement v i = (p, some (.notAllowed (.category e.category))) := by
  cases v <;> simp [Value.asElement] at hv <;> subst hv <;>
    simp [GraphPattern.addElement, indexOf_gt, ha]

theorem addElement_default (p : GraphPattern) (v : Value) (e : Element)
    (hv : v.asElement = some e) (ha : e.category ∈ p.allowedTypes) :
    p.addElement v (-1) = ({ p with elements := p.elements ++ [e] }, none) := by
  rw [addElement_allowed p v e (-1) hv ha]
  have := splice_insert p.elements p.countElements e (by simp [GraphPattern.countElements])
    (by simp [GraphPattern.countElements])
  simp [GraphPattern.countElements] at this
  simp [GraphPattern.countElements, this]

theorem hasKind_append (kind rest : String) :
    (Err.error (kind ++ ":" ++ rest)).hasKind kind = true := by
  simp [Err.hasKind, String.data_append]

/-! ## GraphPattern: serialisation (C3, C5) -/

/-- C3, as stated, fails.  For the pattern holding the Triple `a` and the Filter
`f`, `toString()` yields `{ a . f  } `: the text of the Triple is followed by a
space and then the separator, the text of the Filter by a space.  The claim
puts the separator immediately after the Triple and nothing after the Filter,
which would give `{ a. f } `. -/
theorem toString_inner_text_counterexample :
    (GraphPattern.mk [.triple "a", .filter "f"] false false [.triple, .filter] false).toString
      = "\x7b a . f  \x7d " ∧
    GraphPattern.header false false ++ GraphPattern.claimedInner [.triple "a", .filter "f"]
      ++ " \x7d " = "\x7b a. f \x7d " ∧
    (GraphPattern.mk [.triple "a", .filter "f"] false false [.triple, .filter] false).toString
      ≠ GraphPattern.header false false ++
          GraphPattern.claimedInner [.triple "a", .filter "f"] ++ " \x7d " := by
  refine ⟨?_, ?_, ?_⟩ <;> decide

/-- C3 (amended).  For every pattern, the text that `toString()` places between
the opening `{ ` and the closing ` } ` is the concatenation, in insertion order,
of each element text followed by one space, and, for a Triple element only,
followed after that space by the separator `. `. -/
theorem toString_inner_text (p : GraphPattern) :
    p.toString =
      ((if p.optional then "OPTIONAL " else "") ++ (if p.alternative then "UNION " else "")
        ++ "\x7b ")
      ++ concatAll
        (p.elements.map (fun e => e.toString ++ " " ++ (if e.isTriple then ". " else "")))
      ++ " \x7d " :=
  pattern_toString_eq p

/-- C5.  For every pattern, `toString()` begins with `OPTIONAL ` if the pattern
is optional, then `UNION ` if it is alternative, then `{ `, and it ends with
` } `; with both flags set it begins with `OPTIONAL UNION { `; the empty pattern
with both flags unset serialises to exactly `{  } `. -/
theorem toString_keywords_and_braces (es : List Element) (o a : Bool) (al : List Category)
    (g : Bool) :
    (∃ inner, (GraphPattern.mk es o a al g).toString =
      ((if o then "OPTIONAL " else "") ++ (if a then "UNION " else "") ++ "\x7b ") ++ inner
        ++ " \x7d ") ∧
    (∃ inner, (GraphPattern.mk es true true al g).toString =
      "OPTIONAL UNION \x7b " ++ inner ++ " \x7d ") ∧
    (GraphPattern.mk [] false false al g).toString = "\x7b  \x7d " := by
  refine ⟨⟨_, pattern_toString_eq _⟩, ⟨_, pattern_toString_eq _⟩, ?_⟩
  rfl

/-! ## GraphPattern: adding elements (C6, C7) -/

/-- C6.  For an element `e` whose category is in the allow-list (a bare string
counting as the Triple it is promoted to): `addElement(e)` with the default
index `-1` succeeds, leaves `e` last after the unchanged previous elements and
increases `countElements()` by one; `addElement(e, i)` with `0 <= i <= n` yields
the first `i` old elements, then `e`, then the remaining old elements. -/
theorem addElement_inserts (p : GraphPattern) (v : Value) (e : Element) (i : Int)
    (hv : v.asElement = some e) (ha : e.category ∈ p.allowedTypes) :
    p.addElement v (-1) = ({ p with elements := p.elements ++ [e] }, none) ∧
    (p.addElement v (-1)).1.countElements = p.countElements + 1 ∧
    (p.addElement v (-1)).1.getElements = p.getElements ++ [e] ∧
    (0 ≤ i → i ≤ p.countElements →
      p.addElement v i =
        ({ p with elements := p.elements.take i.toNat ++ e :: p.elements.drop i.toNat },
          none)) := by
  have h1 := addElement_default p v e hv ha
  refine ⟨h1, ?_, ?_, ?_⟩
  · rw [h1]; simp [GraphPattern.countElements]
  · rw [h1]; simp [GraphPattern.getElements]
  · intro h0 hn
    rw [addElement_allowed p v e i hv ha, if_neg (by omega),
      splice_insert p.elements i e h0 (by simpa [GraphPattern.countElements] using hn)]

/-- Witness of C6: the string `c` is inserted at index 1 of a pattern of two
Triples. -/
theorem addElement_inserts_witness :
    (GraphPattern.mk [.triple "a", .triple "b"] false false [.triple, .filter] false).addElement
        (.str "c") 1
      = (GraphPattern.mk [.triple "a", .triple "c", .triple "b"] false false
          [.triple, .filter] false, none) :=
  (addElement_inserts
    (GraphPattern.mk [.triple "a", .triple "b"] false false [.triple, .filter] false)
    (.str "c") (.triple "c") 1 rfl (by decide)).2.2.2 (by decide) (by decide)

/-- C7.  For a value that is not `null` or `undefined`: when its category is not
in the allow-list, `addElement` at any index raises an error of TypeError kind
and the pattern (elements, flags, allow-list) is as before the call; when its
category is in the allow-list, `addElement` raises nothing. -/
theorem addElement_rejects_iff_not_allowed (p : GraphPattern) (v : Value) (i : Int)
    (hu : v ≠ .undefined) (hn : v ≠ .null) :
    (p.allows v = false →
      ∃ err, p.addElement v i = (p, some err) ∧ err.isTypeErrorKind = true) ∧
    (p.allows v = true → (p.addElement v i).2 = none) := by
  constructor
  · intro h
    cases hv : v.asElement with
    | some e =>
      have ha : e.category ∉ p.allowedTypes := by
        simpa [GraphPattern.allows, hv] using h
      exact ⟨_, addElement_rejected p v e i hv ha, rfl⟩
    | none =>
      cases v with
      | undefined => exact absurd rfl hu
      | null => exact absurd rfl hn
      | str s => simp [Value.asElement] at hv
      | obj e => simp [Value.asElement] at hv
      | num n => exact ⟨_, rfl, by decide⟩
      | array xs => exact ⟨_, rfl, by decide⟩
  · intro h
    cases hv : v.asElement with
    | some e =>
      have ha : e.category ∈ p.allowedTypes := by
        simpa [GraphPattern.allows, hv] using h
      rw [addElement_allowed p v e i hv ha]
    | none => simp [GraphPattern.allows, hv] at h

/-- Witness of C7: a nested pattern is rejected by a pattern that allows
Triples and Filters. -/
theorem addElement_rejects_witness :
    ∃ err, (GraphPattern.mk [.triple "a"] false false [.triple, .filter] false).addElement
        (.obj (.pattern [] false false [] false)) 0
      = (GraphPattern.mk [.triple "a"] false false [.triple, .filter] false, some err) ∧
      err.isTypeErrorKind = true :=
  (addElement_rejects_iff_not_allowed
    (GraphPattern.mk [.triple "a"] false false [.triple, .filter] false)
    (.obj (.pattern [] false false [] false)) 0 (by simp) (by simp)).1 (by decide)

/-! ## GraphPattern: removing elements (C8, C9) -/

/-- C8, as stated, fails for a negative count.  On the pattern of one Triple,
`removeElements(0, -1)` passes the guard (`0 >= 0` and `0 + -1 < 1`) and
succeeds, and `splice` removes nothing: the count of elements stays 1, where
the claim makes it decrease by `count`, to 2. -/
theorem removeElements_negative_count_counterexample :
    (0 : Int) ≥ 0 ∧
    (0 : Int) + (-1) < (GraphPattern.mk [.triple "a"] false false [.triple] false).countElements ∧
    ((GraphPattern.mk [.triple "a"] false false [.triple] false).removeElements 0 (-1)).2 = none ∧
    ((GraphPattern.mk [.triple "a"] false false [.triple] false).removeElements
        0 (-1)).1.countElements = 1 ∧
    ((GraphPattern.mk [.triple "a"] false false [.triple] false).removeElements
        0 (-1)).1.countElements
      ≠ (GraphPattern.mk [.triple "a"] false false [.triple] false).countElements - (-1) := by
  decide

/-- C8 (amended).  For integers with `atIndex >= 0`, `count >= 0` and
`atIndex + count < n`, `removeElements(atIndex, count)` succeeds, the resulting
sequence is the old elements before `atIndex` followed by the old elements from
`atIndex + count` on, and `countElements()` decreases by exactly `count`. -/
theorem removeElements_removes_range (p : GraphPattern) (a c : Int) (h0 : a ≥ 0) (hc : c ≥ 0)
    (h1 : a + c < p.countElements) :
    p.removeElements a c =
      ({ p with elements := p.elements.take a.toNat ++ p.elements.drop (a + c).toNat }, none) ∧
    (p.removeElements a c).1.countElements = p.countElements - c := by
  have hlen : a + c < (p.elements.length : Int) := h1
  have h : p.removeElements a c =
      ({ p with elements := p.elements.take a.toNat ++ p.elements.drop (a + c).toNat },
        none) := by
    unfold GraphPattern.removeElements
    rw [if_pos ⟨h0, h1⟩, splice_remove p.elements a c h0 hc hlen]
  refine ⟨h, ?_⟩
  rw [h]
  simp only [GraphPattern.countElements, List.length_append, List.length_take, List.length_drop]
  omega

/-- Witness of C8: two elements are removed from index 1 of a pattern of four. -/
theorem removeElements_removes_range_witness :
    (GraphPattern.mk [.triple "a", .triple "b", .filter "c", .triple "d"] false false
        [.triple, .filter] false).removeElements 1 2
      = (GraphPattern.mk [.triple "a", .triple "d"] false false [.triple, .filter] false, none) :=
  (removeElements_removes_range
    (GraphPattern.mk [.triple "a", .triple "b", .filter "c", .triple "d"] false false
      [.triple, .filter] false) 1 2 (by decide) (by decide) (by decide)).1

/-- C9.  For all integers, `removeElements(atIndex, count)` raises an error of
OutOfBounds kind if and only if not (`atIndex >= 0` and `atIndex + count < n`);
whenever it raises, the pattern is unchanged; the boundary call with
`atIndex + count = n` is rejected. -/
theorem removeElements_raises_iff (p : GraphPattern) (a c : Int) :
    ((∃ e, (p.removeElements a c).2 = some e ∧ e.isOutOfBoundsKind = true) ↔
      ¬ (a ≥ 0 ∧ a + c < p.countElements)) ∧
    ((p.removeElements a c).2 ≠ none → (p.removeElements a c).1 = p) ∧
    (a + c = p.countElements →
      ∃ e, p.removeElements a c = (p, some e) ∧ e.isOutOfBoundsKind = true) := by
  unfold GraphPattern.removeElements
  by_cases h : a ≥ 0 ∧ a + c < p.countElements
  · rw [if_pos h]
    refine ⟨?_, ?_, ?_⟩
    · simp [h]
    · simp
    · intro he; omega
  · rw [if_neg h]
    refine ⟨?_, ?_, ?_⟩
    · simp only [h, not_false_eq_true, iff_true]
      exact ⟨_, rfl, by decide⟩
    · simp
    · intro _
      exact ⟨_, rfl, by decide⟩

/-- Witness of C9: removing the single element of a one-element pattern is
rejected. -/
theorem removeElements_raises_witness :
    ∃ e, (GraphPattern.mk [.triple "a"] false false [.triple, .filter] false).removeElements 0 1
      = (GraphPattern.mk [.triple "a"] false false [.triple, .filter] false, some e) ∧
      e.isOutOfBoundsKind = true :=
  (removeElements_raises_iff
    (GraphPattern.mk [.triple "a"] false false [.triple, .filter] false) 0 1).2.2 (by decide)

/-! ## Query: lemmas -/

theorem foldl_append_eq {α : Type} (f : α → String) (xs : List α) (acc : String) :
    xs.foldl (fun acc x => acc ++ (f x ++ " ")) acc
      = acc ++ concatAll (xs.map (fun x => f x ++ " ")) := by
  induction xs generalizing acc with
  | nil => simp [concatAll]
  | cons x xs ih => simp [concatAll, ih, String.append_assoc]

theorem query_toString_eq (C : Collaborators) (q : Query) (form : QueryForm) (w : GraphPattern)
    (hq : q.config.query = some form) (hw : q.config.whereClause = some w) :
    q.toString C = .ok (
      (match q.config.base with
        | some b => if b ≠ "" then "BASE " ++ b else ""
        | none => "")
      ++ concatAll (q.config.prefixes.map (fun p => C.prefixText p ++ " "))
      ++ C.formText form
      ++ (join " " q.config.datasetClause ++ " ")
      ++ ("WHERE " ++ w.toString)
      ++ concatAll (q.config.solutionModifiers.map (fun m => m ++ " "))) := by
  unfold Query.toString
  simp only [hq, hw]
  rw [foldl_append_eq (fun m : String => m), foldl_append_eq C.prefixText]
  congr 1

theorem rejection_ne (c : Constructor) :
    Err.notAllowed c ≠ Query.errNoQueryForm ∧ Err.notAllowed c ≠ Query.errNoWhereClause := by
  constructor <;> intro h <;> cases h

theorem addElement_error_ne (p : GraphPattern) (v : Value) (i : Int) (e : Err)
    (h : (p.addElement v i).2 = some e) :
    e ≠ Query.errNoQueryForm ∧ e ≠ Query.errNoWhereClause := by
  cases hv : v.asElement with
  | some el =>
    by_cases ha : el.category ∈ p.allowedTypes
    · rw [addElement_allowed p v el i hv ha] at h
      simp at h
    · rw [addElement_rejected p v el i hv ha] at h
      simp at h; subst h
      exact rejection_ne _
  | none =>
    rcases v with _ | _ | s | n | el | xs <;> simp [Value.asElement] at hv <;>
      simp [GraphPattern.addElement] at h <;> subst h <;> constructor <;> decide

theorem addElements_error_ne (p : GraphPattern) (vs : List Value) (e : Err)
    (h : (p.addElements vs).2 = some e) :
    e ≠ Query.errNoQueryForm ∧ e ≠ Query.errNoWhereClause := by
  induction vs generalizing p with
  | nil => simp [GraphPattern.addElements] at h
  | cons v vs ih =>
    unfold GraphPattern.addElements at h
    cases hr : p.addElement v (-1) with
    | mk p1 r =>
      rw [hr] at h
      cases r with
      | none => exact ih p1 h
      | some e1 =>
        simp at h; subst h
        exact addElement_error_ne p v (-1) e1 (by rw [hr])

theorem create_error_ne (v : Value) (o a : Bool) (al : List Category) (e : Err)
    (h : GraphPattern.create v o a al = .error e) :
    e ≠ Query.errNoQueryForm ∧ e ≠ Query.errNoWhereClause := by
  unfold GraphPattern.create at h
  dsimp only at h
  split at h
  · rename_i items
    split at h
    · simp at h
    · rename_i p1 e1 hr
      simp at h; subst h
      exact addElements_error_ne _ items e1 (by rw [hr])
  · by_cases ht : v.truthy = true
    · rw [if_pos ht] at h
      split at h
      · simp at h
      · rename_i p1 e1 hr
        simp at h; subst h
        exact addElement_error_ne _ _ (-1) e1 (by rw [hr])
    · rw [if_neg ht] at h
      simp at h

theorem addToWhereClause_error_ne (q : Query) (v : Value) (i : Int) (e : Err)
    (h : (q.addToWhereClause v i).2 = some e) :
    e ≠ Query.errNoQueryForm ∧ e ≠ Query.errNoWhereClause := by
  unfold Query.addToWhereClause at h
  split at h
  · split at h
    · simp at h
    · rename_i e1 hr
      simp at h; subst h
      exact create_error_ne _ _ _ _ e1 hr
  · rename_i w hw
    exact addElement_error_ne w v i e h

theorem addAllToWhereClause_error_ne (q : Query) (vs : List Value) (e : Err)
    (h : (q.addAllToWhereClause vs).2 = some e) :
    e ≠ Query.errNoQueryForm ∧ e ≠ Query.errNoWhereClause := by
  induction vs generalizing q with
  | nil => simp [Query.addAllToWhereClause] at h
  | cons v vs ih =>
    unfold Query.addAllToWhereClause at h
    cases hr : q.addToWhereClause v (-1) with
    | mk q1 r =>
      rw [hr] at h
      cases r with
      | none => exact ih q1 h
      | some e1 =>
        simp at h; subst h
        exact addToWhereClause_error_ne q v (-1) e1 (by rw [hr])

theorem setWhereClause_error_ne (q : Query) (v : Value) (e : Err)
    (h : (q.setWhereClause v).2 = some e) :
    e ≠ Query.errNoQueryForm ∧ e ≠ Query.errNoWhereClause := by
  unfold Query.setWhereClause at h
  split at h
  · simp at h
  · simp at h; subst h; constructor <;> decide

theorem where_error_ne (q : Query) (v : Value) (e : Err)
    (h : (q.where_ v).2 = some e) :
    e ≠ Query.errNoQueryForm ∧ e ≠ Query.errNoWhereClause := by
  unfold Query.where_ at h
  split at h
  · exact addAllToWhereClause_error_ne q _ e h
  · exact setWhereClause_error_ne q _ e h
  · exact addToWhereClause_error_ne q _ _ e h

theorem call_error_ne (q : Query) (c : Call) (e : Err) (h : (q.call c).2 = some e) :
    e ≠ Query.errNoQueryForm ∧ e ≠ Query.errNoWhereClause := by
  cases c with
  | from_ content named =>
    simp only [Query.call, Query.from_] at h
    split at h <;> simp at h <;> subst h <;> constructor <;> decide
  | where_ content => exact where_error_ne q content e h
  | setWhereClause g => exact setWhereClause_error_ne q g e h
  | addToWhereClause content i => exact addToWhereClause_error_ne q content i e h
  | removeFromWhereClause i n =>
    simp only [Query.call, Query.removeFromWhereClause] at h
    split at h
    · simp at h; subst h; constructor <;> decide
    · rename_i w hw
      simp only [GraphPattern.removeElements] at h
      by_cases hc : i ≥ 0 ∧ i + n < w.countElements
      · rw [if_pos hc] at h; simp at h
      · rw [if_neg hc] at h; simp at h; subst h; constructor <;> decide
  | clearWhereClause =>
    simp only [Query.call, Query.clearWhereClause] at h
    split at h
    · simp at h; subst h; constructor <;> decide
    · simp at h
  | order content =>
    simp only [Query.call, Query.order, Query.pushSolutionModifier] at h
    cases content <;> simp [Value.typeof] at h <;> subst h <;> constructor <;> decide
  | limit content =>
    simp only [Query.call, Query.limit, Query.pushSolutionModifier] at h
    cases content <;> simp [Value.typeof] at h <;> subst h <;> constructor <;> decide
  | offset content =>
    simp only [Query.call, Query.offset, Query.pushSolutionModifier] at h
    cases content <;> simp [Value.typeof] at h <;> subst h <;> constructor <;> decide
  | _ => simp [Query.call] at h

theorem create_single (v : Value) (e : Element) (hs : v.isSingle = true)
    (hv : v.asElement = some e) :
    GraphPattern.create v false false GraphPattern.defaultAllowedTypes
      = .ok (GraphPattern.mk [e] false false [.triple, .filter] false) := by
  rcases v with _ | _ | s | n | el | xs <;> simp [Value.isSingle, Value.asElement] at hs hv
  · subst hv
    simp [GraphPattern.create, Value.truthy, hs, GraphPattern.addElement, Triple.ofString,
      GraphPattern.defaultAllowedTypes, indexOf_gt, Element.category, splice,
      GraphPattern.countElements]
  · subst hv
    rcases el with t | t | ⟨es, o, a, al, g⟩ <;> simp [Value.isSingle] at hs <;>
    simp [GraphPattern.create, Value.truthy, GraphPattern.addElement,
      GraphPattern.defaultAllowedTypes, indexOf_gt, Element.category, splice,
      GraphPattern.countElements]

theorem where_single (q : Query) (v : Value) (hs : v.isSingle = true) :
    q.where_ v = q.addToWhereClause v (-1) := by
  rcases v with _ | _ | s | n | el | xs <;> simp [Value.isSingle] at hs <;> try rfl
  rcases el with t | t | ⟨es, o, a, al, g⟩ <;> simp [Value.isSingle] at hs <;> rfl

theorem where_array_eq_each (q : Query) (xs : List Value) (h : ∀ x ∈ xs, x.isSingle = true) :
    q.where_ (.array xs) = q.whereEach xs := by
  show q.addAllToWhereClause xs = q.whereEach xs
  induction xs generalizing q with
  | nil => rfl
  | cons x xs ih =>
    have hx := h x (List.mem_cons_self _ _)
    have hxs : ∀ y ∈ xs, y.isSingle = true := fun y hy => h y (List.mem_cons_of_mem _ hy)
    unfold Query.addAllToWhereClause Query.whereEach
    rw [where_single q x hx]
    cases hr : q.addToWhereClause x (-1) with
    | mk q1 r =>
      cases r with
      | none => exact ih q1 hxs
      | some e => rfl

theorem sameOutsideWhere_refl (q : Query) : q.sameOutsideWhere q :=
  ⟨rfl, rfl, rfl, rfl, rfl, rfl⟩

theorem sameOutsideWhere_trans {q r s : Query} (h1 : q.sameOutsideWhere r)
    (h2 : r.sameOutsideWhere s) : q.sameOutsideWhere s := by
  obtain ⟨a1, a2, a3, a4, a5, a6⟩ := h1
  obtain ⟨b1, b2, b3, b4, b5, b6⟩ := h2
  exact ⟨b1.trans a1, b2.trans a2, b3.trans a3, b4.trans a4, b5.trans a5, b6.trans a6⟩

theorem addToWhereClause_frame (q : Query) (v : Value) (i : Int) :
    q.sameOutsideWhere (q.addToWhereClause v i).1 := by
  unfold Query.addToWhereClause
  split
  · split
    · exact ⟨rfl, rfl, rfl, rfl, rfl, rfl⟩
    · exact sameOutsideWhere_refl q
  · exact ⟨rfl, rfl, rfl, rfl, rfl, rfl⟩

theorem addAllToWhereClause_frame (q : Query) (vs : List Value) :
    q.sameOutsideWhere (q.addAllToWhereClause vs).1 := by
  induction vs generalizing q with
  | nil => exact sameOutsideWhere_refl q
  | cons v vs ih =>
    unfold Query.addAllToWhereClause
    have h1 := addToWhereClause_frame q v (-1)
    cases hr : q.addToWhereClause v (-1) with
    | mk q1 r =>
      rw [hr] at h1
      cases r with
      | none => exact sameOutsideWhere_trans h1 (ih q1)
      | some e => exact h1

theorem setWhereClause_frame (q : Query) (v : Value) :
    q.sameOutsideWhere (q.setWhereClause v).1 := by
  unfold Query.setWhereClause
  split
  · exact ⟨rfl, rfl, rfl, rfl, rfl, rfl⟩
  · exact sameOutsideWhere_refl q

theorem where_frame (q : Query) (v : Value) : q.sameOutsideWhere (q.where_ v).1 := by
  unfold Query.where_
  split
  · exact addAllToWhereClause_frame q _
  · exact setWhereClause_frame q _
  · exact addToWhereClause_frame q _ _

/-! ## Counting the occurrences of the where segment: lemmas -/

theorem occurrences_short (seg : List Char) (t : List Char) (h : t.length < seg.length) :
    occurrences seg t = 0 := by
  induction t with
  | nil =>
    cases seg with
    | nil => simp at h
    | cons a as => simp [occurrences, List.isPrefixOf]
  | cons c cs ih =>
    have hp : seg.isPrefixOf (c :: cs) = false := by
      cases hq : seg.isPrefixOf (c :: cs) with
      | false => rfl
      | true =>
        have := (List.isPrefixOf_iff_prefix.mp hq).length_le
        omega
    have := ih (by simp at h; omega)
    simp [occurrences, hp, this]

theorem occurrences_self (c : Char) (cs : List Char) :
    occurrences (c :: cs) (c :: cs) = 1 := by
  have h1 : (c :: cs).isPrefixOf (c :: cs) = true :=
    List.isPrefixOf_iff_prefix.mpr (List.prefix_refl _)
  have h2 := occurrences_short (c :: cs) cs (by simp)
  rw [occurrences, h1, h2]; rfl

theorem where_not_prefix (Z rest tail : List Char) (hZ : '\x7b' ∉ Z) :
    ('W' :: 'H' :: 'E' :: 'R' :: 'E' :: ' ' :: '\x7b' :: rest).isPrefixOf
      (Z ++ ' ' :: 'W' :: 'H' :: 'E' :: 'R' :: 'E' :: ' ' :: '\x7b' :: tail) = false := by
  rcases Z with _ | ⟨z0, _ | ⟨z1, _ | ⟨z2, _ | ⟨z3, _ | ⟨z4, _ | ⟨z5, _ | ⟨z6, Z⟩⟩⟩⟩⟩⟩⟩ <;>
    simp [List.isPrefixOf] at hZ ⊢
  intro _ _ _ _ _ _ h6
  exact absurd h6 hZ.2.2.2.2.2.2.1

theorem occurrences_where (X rest : List Char) (hX : '\x7b' ∉ X) :
    occurrences ('W' :: 'H' :: 'E' :: 'R' :: 'E' :: ' ' :: '\x7b' :: rest)
      (X ++ ' ' :: 'W' :: 'H' :: 'E' :: 'R' :: 'E' :: ' ' :: '\x7b' :: rest) = 1 := by
  induction X with
  | nil =>
    have h := where_not_prefix [] rest rest (by simp)
    simp only [List.nil_append] at h ⊢
    rw [occurrences, h, occurrences_self]; rfl
  | cons x X ih =>
    have h := where_not_prefix (x :: X) rest rest hX
    simp only [List.cons_append] at h ⊢
    rw [occurrences, h, ih (fun hm => hX (List.mem_cons_of_mem _ hm))]; rfl

theorem where_segment_data (t : String) :
    ("WHERE \x7b " ++ t ++ " .  \x7d ").data =
      'W' :: 'H' :: 'E' :: 'R' :: 'E' :: ' ' :: '\x7b' ::
        (' ' :: (t.data ++ [' ', '.', ' ', ' ', '\x7d', ' '])) := by
  simp [String.data_append]

theorem where_segment_once (sel t : String) (h : '\x7b' ∉ sel.data) :
    occurrences ("WHERE \x7b " ++ t ++ " .  \x7d ").data
      (sel ++ " " ++ ("WHERE \x7b " ++ t ++ " .  \x7d ")).data = 1 := by
  have h1 : (sel ++ " " ++ ("WHERE \x7b " ++ t ++ " .  \x7d ")).data =
      sel.data ++ ' ' :: ("WHERE \x7b " ++ t ++ " .  \x7d ").data := by
    simp [String.data_append]
  rw [h1, where_segment_data]
  exact occurrences_where sel.data _ h

theorem select_where_text (C : Collaborators) (endpoint : String) (content modifier : Value)
    (t : String) (ht : t ≠ "") :
    (((Query.create endpoint).select content modifier).where_ (.str t)).2 = none ∧
    (((Query.create endpoint).select content modifier).where_ (.str t)).1.toString C
      = .ok (C.formText (.select content modifier) ++ " " ++
          ("WHERE \x7b " ++ t ++ " .  \x7d ")) := by
  have hs : (Value.str t).isSingle = true := by simp [Value.isSingle, ht]
  have hw : ((Query.create endpoint).select content modifier).where_ (.str t) =
      (((Query.create endpoint).select content modifier).withWhereClause
        (GraphPattern.mk [.triple t] false false [.triple, .filter] false), none) := by
    rw [where_single _ _ hs]
    unfold Query.addToWhereClause
    simp only [Query.select, Query.create, Config.empty]
    simp only [create_single (.str t) (.triple t) hs rfl]
    rfl
  rw [hw]
  refine ⟨rfl, ?_⟩
  rw [query_toString_eq C _ (.select content modifier)
    (GraphPattern.mk [.triple t] false false [.triple, .filter] false) rfl rfl]
  congr 1
  apply String.ext
  simp [Query.withWhereClause, Query.select, Query.create, Config.empty, concatAll, join,
    pattern_toString_eq, GraphPattern.header, Element.toString, Element.isTriple,
    String.data_append]

/-! ## Query: serialisation (C1, C2, C4) -/

/-- C1, as stated, fails for a base set to the empty string.  After `base('')`,
`ask()` and `where('?s ?p ?o')` the base is set (to the empty string) and
`toString()` yields `ASK WHERE { ?s ?p ?o .  } `: the guard `if (base)` of the
source skips an empty base.  The claim puts `BASE ` and the base IRI first
whenever a base is set, which would give `BASE ASK WHERE { ?s ?p ?o .  } `. -/
theorem toString_empty_base_counterexample :
    ((((Query.create "e").base "").ask).where_ (.str "?s ?p ?o")).2 = none ∧
    ((((Query.create "e").base "").ask).where_ (.str "?s ?p ?o")).1.config.base = some "" ∧
    ((((Query.create "e").base "").ask).where_ (.str "?s ?p ?o")).1.toString Collaborators.sample
      = .ok "ASK WHERE \x7b ?s ?p ?o .  \x7d " ∧
    Query.claimedText Collaborators.sample
      ((((Query.create "e").base "").ask).where_ (.str "?s ?p ?o")).1 .ask
      (GraphPattern.mk [.triple "?s ?p ?o"] false false [.triple, .filter] false)
      = "BASE ASK WHERE \x7b ?s ?p ?o .  \x7d " ∧
    "ASK WHERE \x7b ?s ?p ?o .  \x7d " ≠ "BASE ASK WHERE \x7b ?s ?p ?o .  \x7d " := by
  refine ⟨rfl, rfl, rfl, ?_, ?_⟩ <;> decide

/-- C1 (amended).  For every query whose query form and where clause are both
set, `toString()` returns exactly the concatenation, in this fixed order, of:
`BASE ` and the base IRI if a non-empty base is set, and nothing if no base is
set or the base is the empty string; each prefix text followed by one space;
the text of the query form; the dataset clauses joined by one space, followed
by one space; `WHERE ` and the `toString()` of the where clause; each solution
modifier followed by one space.  So the text is the one of the original claim
unless the base is the empty string, and with the empty string as base it is
the text of the same query without a base.  The result is a function of the
stored configuration alone, so the order in which the setters of different
parts were called plays no role. -/
theorem toString_concatenation (C : Collaborators) (q : Query) (form : QueryForm)
    (w : GraphPattern) (hq : q.config.query = some form) (hw : q.config.whereClause = some w) :
    q.toString C = .ok (q.serialisedText C form w) ∧
    (q.config.base ≠ some "" → q.toString C = .ok (q.claimedText C form w)) ∧
    (q.config.base = some "" → q.toString C = .ok (q.withoutBase.claimedText C form w)) := by
  have h : q.toString C = .ok (q.serialisedText C form w) := by
    rw [query_toString_eq C q form w hq hw, Query.serialisedText]
    cases hbase : q.config.base with
    | none => rfl
    | some b => by_cases hb : b = "" <;> simp [hb]
  refine ⟨h, ?_, ?_⟩
  · intro hb
    rw [h, Query.serialisedText, Query.claimedText]
    cases hbase : q.config.base with
    | none => rfl
    | some b =>
      have : b ≠ "" := fun h => hb (by rw [hbase, h])
      simp [this]
  · intro hb
    rw [h, Query.serialisedText, Query.claimedText, hb]
    rfl

/-- Witness of C1: the sample query, in which every part is set. -/
theorem toString_concatenation_witness :
    Query.sample.toString Collaborators.sample
      = .ok ("BASE <http://example.org/>PREFIX ex: <http://example.org/ns#> ASK" ++
          "FROM <http://example.org/g> WHERE \x7b ?s ?p ?o . FILTER(?o > 1)  \x7d LIMIT 10 ") :=
  (toString_concatenation Collaborators.sample Query.sample .ask
    (GraphPattern.mk [.triple "?s ?p ?o", .filter "FILTER(?o > 1)"] false false
      [.triple, .filter] false) rfl rfl).1.trans (congrArg Except.ok (by decide))

/-- C2.  For every configuration of a query (so for every one reachable through
the setters): `toString()` raises an error of TypeError kind if and only if no
query form is set or no where clause is set; when both are set it returns a
string; and no call of a mutating method ever raises one of the two errors of
`toString()` for a missing query form or a missing where clause. -/
theorem toString_raises_iff_missing_clause (C : Collaborators) (q : Query) :
    ((∃ e, q.toString C = .error e ∧ e.isTypeErrorKind = true) ↔
      (q.config.query = none ∨ q.config.whereClause = none)) ∧
    (q.config.query ≠ none → q.config.whereClause ≠ none → ∃ s, q.toString C = .ok s) ∧
    (∀ c : Call, (q.call c).2 ≠ some Query.errNoQueryForm ∧
      (q.call c).2 ≠ some Query.errNoWhereClause) := by
  refine ⟨?_, ?_, ?_⟩
  · cases hq : q.config.query with
    | none =>
      simp only [true_or, iff_true]
      exact ⟨Query.errNoQueryForm, by simp [Query.toString, hq], by decide⟩
    | some form =>
      cases hw : q.config.whereClause with
      | none =>
        simp only [or_true, iff_true]
        exact ⟨Query.errNoWhereClause, by simp [Query.toString, hq, hw], by decide⟩
      | some w =>
        rw [query_toString_eq C q form w hq hw]
        simp
  · intro hq hw
    cases hq2 : q.config.query with
    | none => exact absurd hq2 hq
    | some form =>
      cases hw2 : q.config.whereClause with
      | none => exact absurd hw2 hw
      | some w => exact ⟨_, query_toString_eq C q form w hq2 hw2⟩
  · intro c
    constructor
    · intro h; exact (call_error_ne q c _ h).1 rfl
    · intro h; exact (call_error_ne q c _ h).2 rfl

/-- Witness of C2: a query with a query form and a where clause serialises. -/
theorem toString_raises_iff_missing_clause_witness :
    ∃ s, (((Query.create "e").ask).where_ (.str "?s ?p ?o")).1.toString Collaborators.sample
      = .ok s :=
  (toString_raises_iff_missing_clause Collaborators.sample
    (((Query.create "e").ask).where_ (.str "?s ?p ?o")).1).2.1
    (by show some QueryForm.ask ≠ none; simp)
    (by
      show some (GraphPattern.mk [.triple "?s ?p ?o"] false false [.triple, .filter] false)
        ≠ none
      simp)

/-- C4, as stated, fails.  After `select('?s ?p ?o')` and `where('?s ?p ?o')`
on a fresh query `toString()` raises nothing, and its where segment is
`WHERE { ?s ?p ?o .  } `, with two spaces before the closing brace; the segment
`WHERE { ?s ?p ?o . } ` of the claim does not occur in the output. -/
theorem select_where_serialisation_counterexample :
    (((Query.create "e").select (.str "?s ?p ?o") .undefined).where_ (.str "?s ?p ?o")).2 = none ∧
    (((Query.create "e").select (.str "?s ?p ?o") .undefined).where_
        (.str "?s ?p ?o")).1.toString Collaborators.sample
      = .ok "SELECT ?s ?p ?o WHERE \x7b ?s ?p ?o .  \x7d " ∧
    occurrences ("WHERE \x7b " ++ "?s ?p ?o" ++ " . \x7d ").data
      "SELECT ?s ?p ?o WHERE \x7b ?s ?p ?o .  \x7d ".data = 0 := by
  refine ⟨rfl, rfl, ?_⟩
  decide

/-- C4 (amended).  For every select content and every non-empty triple string
`t`, a fresh query configured only by `select(content)` and then `where(t)`
serialises without raising; the output is the text of the select clause, one
space, and the segment `WHERE { t .  } ` (two spaces before the closing brace);
so it begins with the text of the select clause, and when that text holds no
opening brace the output contains exactly one occurrence of the segment. -/
theorem select_where_serialisation (C : Collaborators) (endpoint : String)
    (content modifier : Value) (t : String) (ht : t ≠ "") :
    (((Query.create endpoint).select content modifier).where_ (.str t)).2 = none ∧
    (((Query.create endpoint).select content modifier).where_ (.str t)).1.toString C
      = .ok (C.formText (.select content modifier) ++ " " ++
          ("WHERE \x7b " ++ t ++ " .  \x7d ")) ∧
    (C.formText (.select content modifier)).data <+:
      (C.formText (.select content modifier) ++ " " ++
          ("WHERE \x7b " ++ t ++ " .  \x7d ")).data ∧
    ('\x7b' ∉ (C.formText (.select content modifier)).data →
      occurrences ("WHERE \x7b " ++ t ++ " .  \x7d ").data
        (C.formText (.select content modifier) ++ " " ++
          ("WHERE \x7b " ++ t ++ " .  \x7d ")).data = 1) := by
  obtain ⟨h1, h2⟩ := select_where_text C endpoint content modifier t ht
  refine ⟨h1, h2, ?_, ?_⟩
  · simp [String.data_append]
  · intro h
    exact where_segment_once _ t h

/-- Witness of C4: the query of the specification, `select('?s ?p ?o')` and
`where('?s ?p ?o')`. -/
theorem select_where_serialisation_witness :
    occurrences ("WHERE \x7b " ++ "?s ?p ?o" ++ " .  \x7d ").data
      (Collaborators.sample.formText (.select (.str "?s ?p ?o") .undefined) ++ " " ++
        ("WHERE \x7b " ++ "?s ?p ?o" ++ " .  \x7d ")).data = 1 :=
  (select_where_serialisation Collaborators.sample "e" (.str "?s ?p ?o") .undefined
    "?s ?p ?o" (by decide)).2.2.2 (by decide)

/-! ## Atomicity, invariants, chains and balance (C11 to C20) -/


theorem splice_beyond {α : Type} (xs : List α) (i : Int) (e : α) (h : (xs.length : Int) ≤ i) :
    splice xs i 0 [e] = xs ++ [e] := by
  rw [splice_eq xs i 0 [e] xs.length 0 (by rw [if_neg (by omega)]; omega) (by omega)]
  simp

theorem splice_nonpos {α : Type} (xs : List α) (a c : Int) (h0 : 0 ≤ a) (hc : c ≤ 0) :
    splice xs a c [] = xs := by
  rw [splice_eq xs a c [] (min a (xs.length : Int)).toNat 0 (by rw [if_neg (by omega)]) (by omega)]
  simp

theorem mem_splice {α : Type} (xs : List α) (start deleteCount : Int) (items : List α) (x : α)
    (h : x ∈ splice xs start deleteCount items) : x ∈ xs ∨ x ∈ items := by
  unfold splice at h
  simp only [List.mem_append] at h
  rcases h with (h | h) | h
  · exact Or.inl (List.mem_of_mem_take h)
  · exact Or.inr h
  · exact Or.inl (List.mem_of_mem_drop h)

theorem addElement_cases (p : GraphPattern) (v : Value) (i : Int) :
    (∃ err, p.addElement v i = (p, some err)) ∨
    (∃ e, v.asElement = some e ∧ e.category ∈ p.allowedTypes ∧
      p.addElement v i =
        ({ p with elements := splice p.elements (if i < 0 then p.countElements else i) 0 [e] },
          none)) := by
  cases hv : v.asElement with
  | some e =>
    by_cases ha : e.category ∈ p.allowedTypes
    · exact Or.inr ⟨e, rfl, ha, addElement_allowed p v e i hv ha⟩
    · exact Or.inl ⟨_, addElement_rejected p v e i hv ha⟩
  | none =>
    rcases v with _ | _ | s | n | el | xs <;> simp [Value.asElement] at hv <;>
      exact Or.inl ⟨_, rfl⟩

theorem addElement_error_unchanged (p : GraphPattern) (v : Value) (i : Int)
    (h : (p.addElement v i).2 ≠ none) : (p.addElement v i).1 = p := by
  rcases addElement_cases p v i with ⟨err, he⟩ | ⟨e, _, _, he⟩
  · rw [he]
  · rw [he] at h; exact absurd rfl h

theorem removeElements_error_unchanged (p : GraphPattern) (a c : Int)
    (h : (p.removeElements a c).2 ≠ none) : (p.removeElements a c).1 = p := by
  unfold GraphPattern.removeElements at h ⊢
  by_cases hc : a ≥ 0 ∧ a + c < p.countElements
  · rw [if_pos hc] at h; exact absurd rfl h
  · rw [if_neg hc]

theorem withWhereClause_self (q : Query) (w : GraphPattern) (h : q.config.whereClause = some w) :
    ({ q with config := { q.config with whereClause := some w } } : Query) = q := by
  cases q with
  | mk config transport =>
    cases config
    simp at h
    simp [h]

theorem addToWhereClause_error_unchanged (q : Query) (v : Value) (i : Int)
    (h : (q.addToWhereClause v i).2 ≠ none) : (q.addToWhereClause v i).1 = q := by
  unfold Query.addToWhereClause at h ⊢
  split
  · rename_i hw
    split
    · rename_i p hp
      simp only [hw, hp] at h
      exact absurd rfl h
    · rfl
  · rename_i w hw
    simp only [hw] at h
    have := addElement_error_unchanged w v i h
    simp only [this]
    exact withWhereClause_self q w hw

theorem setWhereClause_error_unchanged (q : Query) (v : Value)
    (h : (q.setWhereClause v).2 ≠ none) : (q.setWhereClause v).1 = q := by
  unfold Query.setWhereClause at h ⊢
  split
  · simp at h
  · rfl

theorem removeFromWhereClause_error_unchanged (q : Query) (a c : Int)
    (h : (q.removeFromWhereClause a c).2 ≠ none) : (q.removeFromWhereClause a c).1 = q := by
  unfold Query.removeFromWhereClause at h ⊢
  split
  · rfl
  · rename_i w hw
    simp only [hw] at h
    have := removeElements_error_unchanged w a c h
    simp only [this]
    exact withWhereClause_self q w hw

theorem where_error_unchanged (q : Query) (v : Value) (hv : v.isArray = false)
    (h : (q.where_ v).2 ≠ none) : (q.where_ v).1 = q := by
  rcases v with _ | _ | s | n | el | xs
  · exact addToWhereClause_error_unchanged q _ (-1) h
  · exact addToWhereClause_error_unchanged q _ (-1) h
  · exact addToWhereClause_error_unchanged q _ (-1) h
  · exact addToWhereClause_error_unchanged q _ (-1) h
  · rcases el with t | t | ⟨es, o, a, al, g⟩
    · exact addToWhereClause_error_unchanged q _ (-1) h
    · exact addToWhereClause_error_unchanged q _ (-1) h
    · exact setWhereClause_error_unchanged q _ h
  · simp [Value.isArray] at hv

theorem order_error_unchanged (q : Query) (v : Value)
    (h : (q.order v).2 ≠ none) : (q.order v).1 = q := by
  cases v <;> first | rfl | exact absurd rfl h

theorem limit_error_unchanged (q : Query) (v : Value)
    (h : (q.limit v).2 ≠ none) : (q.limit v).1 = q := by
  cases v <;> first | rfl | exact absurd rfl h

theorem offset_error_unchanged (q : Query) (v : Value)
    (h : (q.offset v).2 ≠ none) : (q.offset v).1 = q := by
  cases v <;> first | rfl | exact absurd rfl h

/-- C12, as stated, fails for `where` on a list.  On a fresh query
`where(['?s ?p ?o', 42])` raises on the second item, after the first item has
created the where clause: the where clause was absent before the call and
holds the Triple `?s ?p ?o` after it. -/
theorem where_list_partial_update_counterexample :
    ((Query.create "e").where_ (.array [.str "?s ?p ?o", .num JsNumber.fortyTwo])).2 ≠ none ∧
    (Query.create "e").config.whereClause = none ∧
    ((Query.create "e").where_
        (.array [.str "?s ?p ?o", .num JsNumber.fortyTwo])).1.config.whereClause
      = some (GraphPattern.mk [.triple "?s ?p ?o"] false false [.triple, .filter] false) ∧
    ((Query.create "e").where_
        (.array [.str "?s ?p ?o", .num JsNumber.fortyTwo])).1.config.whereClause
      ≠ (Query.create "e").config.whereClause := by
  refine ⟨?_, rfl, rfl, ?_⟩
  · intro h
    exact Option.noConfusion h
  · intro h
    exact Option.noConfusion h

/-- C12 (amended).  When a call of `setWhereClause`, `addToWhereClause`,
`removeFromWhereClause`, `order`, `limit`, `offset`, or of `where` with an
argument that is not a list raises an error, the query is exactly what it was
before the call.  For `where` on a list, whether it raises or not, everything
but the where clause is unchanged. -/
theorem mutator_error_leaves_state (q : Query) :
    (∀ v : Value, v.isArray = false → (q.where_ v).2 ≠ none → (q.where_ v).1 = q) ∧
    (∀ v : Value, (q.setWhereClause v).2 ≠ none → (q.setWhereClause v).1 = q) ∧
    (∀ (v : Value) (i : Int),
      (q.addToWhereClause v i).2 ≠ none → (q.addToWhereClause v i).1 = q) ∧
    (∀ a c : Int,
      (q.removeFromWhereClause a c).2 ≠ none → (q.removeFromWhereClause a c).1 = q) ∧
    (∀ v : Value, (q.order v).2 ≠ none → (q.order v).1 = q) ∧
    (∀ v : Value, (q.limit v).2 ≠ none → (q.limit v).1 = q) ∧
    (∀ v : Value, (q.offset v).2 ≠ none → (q.offset v).1 = q) ∧
    (∀ xs : List Value, q.sameOutsideWhere (q.where_ (.array xs)).1) :=
  ⟨where_error_unchanged q, setWhereClause_error_unchanged q,
    addToWhereClause_error_unchanged q, removeFromWhereClause_error_unchanged q,
    order_error_unchanged q, limit_error_unchanged q, offset_error_unchanged q,
    fun xs => where_frame q (.array xs)⟩


theorem conforms_addElement {o a : Bool} {al : List Category} {p : GraphPattern}
    (h : p.Conforms o a al) (v : Value) (i : Int) : (p.addElement v i).1.Conforms o a al := by
  rcases addElement_cases p v i with ⟨err, he⟩ | ⟨e, _, hal, he⟩
  · rw [he]; exact h
  · rw [he]
    obtain ⟨h1, h2, h3, h4⟩ := h
    refine ⟨?_, h2, h3, h4⟩
    intro x hx
    rcases mem_splice _ _ _ _ x hx with hx | hx
    · exact h1 x hx
    · simp at hx; subst hx; rw [← h2]; exact hal

theorem conforms_removeElements {o a : Bool} {al : List Category} {p : GraphPattern}
    (h : p.Conforms o a al) (i c : Int) : (p.removeElements i c).1.Conforms o a al := by
  unfold GraphPattern.removeElements
  split
  · obtain ⟨h1, h2, h3, h4⟩ := h
    refine ⟨?_, h2, h3, h4⟩
    intro x hx
    rcases mem_splice _ _ _ _ x hx with hx | hx
    · exact h1 x hx
    · simp at hx
  · exact h

theorem conforms_call {o a : Bool} {al : List Category} {p : GraphPattern}
    (h : p.Conforms o a al) (c : PatternCall) : (p.call c).1.Conforms o a al := by
  cases c with
  | addElement v i => exact conforms_addElement h v i
  | removeElements i c => exact conforms_removeElements h i c
  | clear =>
    obtain ⟨_, h2, h3, h4⟩ := h
    exact ⟨by simp [GraphPattern.call, GraphPattern.clear], h2, h3, h4⟩

theorem conforms_run {o a : Bool} {al : List Category} (cs : List PatternCall) :
    ∀ {p : GraphPattern}, p.Conforms o a al → (p.run cs).Conforms o a al := by
  induction cs with
  | nil => intro p h; exact h
  | cons c cs ih => intro p h; exact ih (conforms_call h c)

theorem conforms_addElements {o a : Bool} {al : List Category} (vs : List Value) :
    ∀ {p : GraphPattern}, p.Conforms o a al → (p.addElements vs).1.Conforms o a al := by
  induction vs with
  | nil => intro p h; exact h
  | cons v vs ih =>
    intro p h
    unfold GraphPattern.addElements
    have h1 := conforms_addElement h v (-1)
    cases hr : p.addElement v (-1) with
    | mk p1 r =>
      rw [hr] at h1
      cases r with
      | none => exact ih h1
      | some e => exact h1

theorem conforms_emptyWith (o a : Bool) (al : List Category) :
    (GraphPattern.emptyWith o a al).Conforms o a al :=
  ⟨by simp [GraphPattern.emptyWith], rfl, rfl, rfl⟩

theorem conforms_create {o a : Bool} {al : List Category} {v : Value} {p : GraphPattern}
    (h : GraphPattern.create v o a al = .ok p) : p.Conforms o a al := by
  unfold GraphPattern.create at h
  dsimp only at h
  split at h
  · rename_i items
    have h1 := conforms_addElements items (conforms_emptyWith o a al)
    unfold GraphPattern.emptyWith at h1
    split at h
    · rename_i p1 hr
      rw [hr] at h1
      simp at h; subst h; exact h1
    · simp at h
  · by_cases ht : v.truthy = true
    · rw [if_pos ht] at h
      have h1 := conforms_addElement (conforms_emptyWith o a al) v (-1)
      unfold GraphPattern.emptyWith at h1
      split at h
      · rename_i p1 hr
        rw [hr] at h1
        simp at h; subst h; exact h1
      · simp at h
    · rw [if_neg ht] at h
      simp at h; subst h
      exact conforms_emptyWith o a al

/-- C13.  For every pattern that the constructor yields, after any finite
sequence of `addElement`, `removeElements` and `clear` calls, each completing
or raising, every element has a category of the allow-list given at
construction, and the allow-list and the two flags are the ones given at
construction. -/
theorem allow_list_invariant (elements : Value) (o a : Bool) (al : List Category) (p0 : GraphPattern)
    (calls : List PatternCall) (h : GraphPattern.create elements o a al = .ok p0) :
    (∀ e ∈ (p0.run calls).elements, e.category ∈ al) ∧
    (p0.run calls).allowedTypes = al ∧
    (p0.run calls).optional = o ∧
    (p0.run calls).alternative = a :=
  conforms_run calls (conforms_create h)


theorem addEach_eq_addElements (xs : List Value) :
    ∀ p : GraphPattern, p.addEach xs =
      (match p.addElements xs with
        | (p1, none) => Except.ok p1
        | (_, some e) => Except.error e) := by
  induction xs with
  | nil => intro p; rfl
  | cons x xs ih =>
    intro p
    unfold GraphPattern.addEach GraphPattern.addElements
    rw [List.foldlM_cons]
    cases hr : p.addElement x (-1) with
    | mk p1 r =>
      cases r with
      | none =>
        have := ih p1
        unfold GraphPattern.addEach at this
        simpa [bind, Except.bind] using this
      | some e => rfl

theorem addElements_elements (xs : List Value) :
    ∀ (p q : GraphPattern), p.addElements xs = (q, none) →
      q.elements.map some = p.elements.map some ++ xs.map Value.asElement := by
  induction xs with
  | nil =>
    intro p q h
    simp [GraphPattern.addElements] at h
    subst h; simp
  | cons x xs ih =>
    intro p q h
    unfold GraphPattern.addElements at h
    rcases addElement_cases p x (-1) with ⟨err, he⟩ | ⟨e, hv, hal, he⟩
    · rw [he] at h; simp at h
    · rw [addElement_default p x e hv hal] at h
      have := ih _ q h
      simp [this, hv]

/-- C14, as stated, fails for the empty string passed alone.  The constructor
skips a falsy single input (`else if (elements)`), so `new GraphPattern('')`
has no element, while `addElement('')` on the empty pattern adds one Triple. -/
theorem create_empty_string_counterexample :
    GraphPattern.create (.str "") false false [.triple, .filter]
      = .ok (GraphPattern.mk [] false false [.triple, .filter] false) ∧
    (GraphPattern.emptyWith false false [.triple, .filter]).addEach [.str ""]
      = .ok (GraphPattern.mk [.triple ""] false false [.triple, .filter] false) := by
  constructor <;> rfl

/-- C14 (amended).  For a list of inputs, and for a single element that is not
the empty string (treated as the list of that one input), the constructor
yields what starting from the empty pattern with the same flags and allow-list
and calling `addElement` on each input in input order yields.  When the
construction succeeds, each input appears at its input position, a bare string
as the Triple it is promoted to. -/
theorem create_adds_each_input (o a : Bool) (al : List Category) :
    (∀ xs : List Value,
      GraphPattern.create (.array xs) o a al = (GraphPattern.emptyWith o a al).addEach xs) ∧
    (∀ (x : Value) (e : Element), x.asElement = some e → x ≠ .str "" →
      GraphPattern.create x o a al = (GraphPattern.emptyWith o a al).addEach [x]) ∧
    (∀ (xs : List Value) (p : GraphPattern), GraphPattern.create (.array xs) o a al = .ok p →
      p.elements.map some = xs.map Value.asElement) ∧
    (∀ (x : Value) (e : Element) (p : GraphPattern), x.asElement = some e → x ≠ .str "" →
      GraphPattern.create x o a al = .ok p → p.elements = [e]) := by
  have hlist : ∀ xs : List Value,
      GraphPattern.create (.array xs) o a al = (GraphPattern.emptyWith o a al).addEach xs := by
    intro xs
    rw [addEach_eq_addElements]
    rfl
  have hsingle : ∀ (x : Value) (e : Element), x.asElement = some e → x ≠ .str "" →
      GraphPattern.create x o a al = (GraphPattern.emptyWith o a al).addEach [x] := by
    intro x e hx hne
    rw [addEach_eq_addElements]
    have ht : x.truthy = true := by
      rcases x with _ | _ | s | n | el | xs <;> simp [Value.asElement] at hx
      · simp [Value.truthy]
        intro hs; exact hne (by rw [hs])
      · rfl
    rcases x with _ | _ | s | n | el | xs <;> simp [Value.asElement] at hx
    · unfold GraphPattern.create
      simp only [ht, if_true, GraphPattern.addElements, GraphPattern.emptyWith]
      cases hr : GraphPattern.addElement
        { elements := [], optional := o, alternative := a, allowedTypes := al, group := false }
        (Value.str s) (-1) with
      | mk p1 r => cases r <;> rfl
    · unfold GraphPattern.create
      simp only [ht, if_true, GraphPattern.addElements, GraphPattern.emptyWith]
      cases hr : GraphPattern.addElement
        { elements := [], optional := o, alternative := a, allowedTypes := al, group := false }
        (Value.obj el) (-1) with
      | mk p1 r => cases r <;> rfl
  have hpos : ∀ (xs : List Value) (p : GraphPattern),
      (GraphPattern.emptyWith o a al).addEach xs = .ok p →
      p.elements.map some = xs.map Value.asElement := by
    intro xs p h
    rw [addEach_eq_addElements] at h
    cases hr : (GraphPattern.emptyWith o a al).addElements xs with
    | mk p1 r =>
      rw [hr] at h
      cases r with
      | none =>
        simp at h; subst h
        have := addElements_elements xs _ _ hr
        simpa [GraphPattern.emptyWith] using this
      | some e => simp at h
  refine ⟨hlist, hsingle, ?_, ?_⟩
  · intro xs p h
    rw [hlist] at h
    exact hpos xs p h
  · intro x e p hx hne h
    rw [hsingle x e hx hne] at h
    have := hpos [x] p h
    simp [hx] at this
    rcases hp : p.elements with _ | ⟨e1, _ | ⟨e2, rest⟩⟩ <;> simp [hp] at this
    subst this; rfl


/-- C15, as stated, fails.  On the pattern of one Triple, `addElement('b', 5)`
with the index 5 beyond the end raises nothing and changes the sequence: the
new Triple is appended. -/
theorem addElement_beyond_end_counterexample :
    (5 : Int) > (GraphPattern.mk [.triple "a"] false false [.triple, .filter] false).countElements ∧
    (GraphPattern.mk [.triple "a"] false false [.triple, .filter] false).addElement (.str "b") 5
      = (GraphPattern.mk [.triple "a", .triple "b"] false false [.triple, .filter] false, none) := by
  constructor
  · decide
  · rfl

/-- C15 (amended).  For an allowed element `e`, `addElement(e, atIndex)` with
`atIndex > n` is not rejected: it raises nothing and appends `e` after the `n`
existing elements, as `splice` clamps the index to the length. -/
theorem addElement_beyond_end_appends (p : GraphPattern) (v : Value) (e : Element) (i : Int)
    (hv : v.asElement = some e) (ha : e.category ∈ p.allowedTypes) (hi : i > p.countElements) :
    p.addElement v i = ({ p with elements := p.elements ++ [e] }, none) ∧
    (p.addElement v i).1.countElements = p.countElements + 1 := by
  have hlen : (0 : Int) ≤ p.elements.length := Int.natCast_nonneg _
  have h : p.addElement v i = ({ p with elements := p.elements ++ [e] }, none) := by
    have hi2 : (p.elements.length : Int) < i := hi
    rw [addElement_allowed p v e i hv ha, if_neg (by omega),
      splice_beyond p.elements i e (by omega)]
  refine ⟨h, ?_⟩
  rw [h]; simp [GraphPattern.countElements]

/-- Witness of C15: the index 7 on a pattern of one element. -/
theorem addElement_beyond_end_appends_witness :
    (GraphPattern.mk [.triple "a"] false false [.triple, .filter] false).addElement (.str "b") 7
      = (GraphPattern.mk [.triple "a", .triple "b"] false false [.triple, .filter] false, none) :=
  (addElement_beyond_end_appends (GraphPattern.mk [.triple "a"] false false [.triple, .filter] false) (.str "b")
    (.triple "b") 7 rfl (by decide) (by decide)).1

/-- C16, as stated, fails.  The methods `base` and `clearPrefixes` complete and
return `undefined`, so the chain `base(b).select(s).where(w)` of the claim
raises the `TypeError` of the runtime at `select`, and so does
`clearPrefixes().select(s)`. -/
theorem chain_after_base_counterexample :
    (Call.base "<http://example.org/>").returned = .undefined ∧
    Call.clearPrefixes.returned = .undefined ∧
    ((Query.create "e").call (.base "<http://example.org/>")).2 = none ∧
    ((Query.create "e").chain
      [.base "<http://example.org/>", .select (.str "?s") .undefined,
        .where_ (.str "?s ?p ?o")]).2
      = some (.native "Cannot read property of undefined") ∧
    ((Query.create "e").chain
      [.clearPrefixes, .select (.str "?s") .undefined]).2
      = some (.native "Cannot read property of undefined") := by
  refine ⟨rfl, rfl, rfl, rfl, rfl⟩

theorem chain_builders (cs : List Call) :
    ∀ q : Query, (∀ c ∈ cs, c.isBuilder = true) → q.chain cs = q.callEach cs := by
  induction cs with
  | nil => intro q _; rfl
  | cons c cs ih =>
    intro q h
    have hc := h c (List.mem_cons_self _ _)
    have hcs : ∀ d ∈ cs, d.isBuilder = true := fun d hd => h d (List.mem_cons_of_mem _ hd)
    have hret : c.returned = .self := by
      cases c <;> first | rfl | simp [Call.isBuilder] at hc
    unfold Query.chain Query.callEach
    cases hr : q.call c with
    | mk q1 r =>
      cases r with
      | some e => rfl
      | none =>
        cases cs with
        | nil => rfl
        | cons d ds =>
          simp only [hret]
          exact ih q1 hcs

/-- C16 (amended).  Each of the methods `prefix`, `select`, `describe`, `ask`,
`construct`, `from`, `where`, `order`, `limit` and `offset`, when it completes,
returns the query it was called on, so a chain of these methods is the sequence
of its calls on that query.  The methods `reset`, `addPrefix`, `clearPrefixes`,
`clearDatasetClauses`, `setWhereClause`, `addToWhereClause`,
`removeFromWhereClause` and `clearWhereClause` return `undefined`. -/
theorem builders_return_query (q : Query) :
    (∀ c : Call, c.isBuilder = true → c.returned = .self) ∧
    (∀ cs : List Call, (∀ c ∈ cs, c.isBuilder = true) → q.chain cs = q.callEach cs) ∧
    Call.reset.returned = .undefined ∧
    (∀ x, (Call.addPrefix x).returned = .undefined) ∧
    Call.clearPrefixes.returned = .undefined ∧
    Call.clearDatasetClauses.returned = .undefined ∧
    (∀ x, (Call.setWhereClause x).returned = .undefined) ∧
    (∀ x i, (Call.addToWhereClause x i).returned = .undefined) ∧
    (∀ i n, (Call.removeFromWhereClause i n).returned = .undefined) ∧
    Call.clearWhereClause.returned = .undefined := by
  refine ⟨?_, fun cs h => chain_builders cs q h, rfl, fun _ => rfl, rfl, rfl, fun _ => rfl,
    fun _ _ => rfl, fun _ _ => rfl, rfl⟩
  intro c hc
  cases c <;> first | rfl | simp [Call.isBuilder] at hc

/-- Witness of C16: the chain `select('?s').where('?s ?p ?o')`. -/
theorem builders_return_query_witness :
    (Query.create "e").chain [.select (.str "?s") .undefined, .where_ (.str "?s ?p ?o")]
      = (Query.create "e").callEach [.select (.str "?s") .undefined, .where_ (.str "?s ?p ?o")] :=
  (builders_return_query (Query.create "e")).2.1 [.select (.str "?s") .undefined, .where_ (.str "?s ?p ?o")]
    (by intro c hc; simp at hc; rcases hc with rfl | rfl <;> rfl)


theorem getLast_splice_remove {α : Type} (xs : List α) (a c : Int) (h0 : 0 ≤ a)
    (h1 : a + c < xs.length) : (splice xs a c []).getLast? = xs.getLast? := by
  by_cases hc : c ≤ 0
  · rw [splice_nonpos xs a c h0 hc]
  · rw [splice_remove xs a c h0 (by omega) h1, List.getLast?_append, List.getLast?_drop,
      if_neg (by omega)]
    cases h : xs.getLast? with
    | none => simp at h; subst h; simp
    | some x => simp

theorem removeElements_last (p : GraphPattern) (a c : Int) :
    (p.removeElements a c).1.elements.getLast? = p.elements.getLast? := by
  unfold GraphPattern.removeElements
  split
  · rename_i h
    exact getLast_splice_remove p.elements a c h.1 h.2
  · rfl

theorem removeEach_last (calls : List (Int × Int)) :
    ∀ p : GraphPattern, (p.removeEach calls).elements.getLast? = p.elements.getLast? := by
  induction calls with
  | nil => intro p; rfl
  | cons ac rest ih =>
    intro p
    obtain ⟨a, c⟩ := ac
    unfold GraphPattern.removeEach
    rw [ih, removeElements_last]

/-- C19.  For a non-empty pattern whose last element is `last`: after a
`removeElements` call that succeeds the last element is still `last`; after any
finite sequence of `removeElements` calls, each completing or raising, the last
element is still `last` and the pattern is not empty; `clear` empties it. -/
theorem removeElements_keeps_last (p : GraphPattern) (last : Element) (h : p.elements.getLast? = some last) :
    (∀ a c : Int, (p.removeElements a c).2 = none →
      (p.removeElements a c).1.elements.getLast? = some last) ∧
    (∀ calls : List (Int × Int),
      (p.removeEach calls).elements.getLast? = some last ∧
      (p.removeEach calls).elements ≠ [] ∧
      (p.removeEach calls).countElements ≥ 1) ∧
    p.clear.elements = [] := by
  refine ⟨?_, ?_, rfl⟩
  · intro a c _
    rw [removeElements_last, h]
  · intro calls
    have hl : (p.removeEach calls).elements.getLast? = some last := by
      rw [removeEach_last, h]
    have hne : (p.removeEach calls).elements ≠ [] := by
      intro he; rw [he] at hl; simp at hl
    refine ⟨hl, hne, ?_⟩
    have : 0 < (p.removeEach calls).elements.length := List.length_pos.mpr hne
    simp only [GraphPattern.countElements]
    omega

/-- Witness of C19: three `removeElements` calls on a pattern of two Triples. -/
theorem removeElements_keeps_last_witness :
    ((GraphPattern.mk [.triple "a", .triple "b"] false false [.triple] false).removeEach
      [(0, 1), (0, 1), (0, 5)]).elements.getLast? = some (.triple "b") :=
  ((removeElements_keeps_last (GraphPattern.mk [.triple "a", .triple "b"] false false [.triple] false) (.triple "b")
    rfl).2.1 [(0, 1), (0, 1), (0, 5)]).1


theorem balanced_of_braceFree (s : List Char) (h1 : '\x7b' ∉ s) (h2 : '\x7d' ∉ s) :
    Balanced s := by
  constructor
  · rw [List.count_eq_zero.mpr h1, List.count_eq_zero.mpr h2]
  · intro k
    have : '\x7d' ∉ s.take k := fun h => h2 (List.mem_of_mem_take h)
    rw [List.count_eq_zero.mpr this]
    exact Nat.zero_le _

theorem balanced_append {s t : List Char} (hs : Balanced s) (ht : Balanced t) :
    Balanced (s ++ t) := by
  constructor
  · rw [List.count_append, List.count_append, hs.1, ht.1]
  · intro k
    rw [List.take_append_eq_append_take, List.count_append, List.count_append]
    exact Nat.add_le_add (hs.2 k) (ht.2 _)

theorem balanced_wrap {s : List Char} (hs : Balanced s) :
    Balanced ('\x7b' :: (s ++ ['\x7d'])) := by
  constructor
  · simp [List.count_cons, List.count_append, hs.1]
  · intro k
    cases k with
    | zero => simp
    | succ j =>
      rw [List.take_succ_cons, List.take_append_eq_append_take]
      have h1 := hs.2 j
      have h2 : (List.take (j - s.length) ['\x7d']).count '\x7d' ≤ 1 := by
        cases (j - s.length) <;> simp
      have h3 : (List.take (j - s.length) ['\x7d']).count '\x7b' = 0 := by
        cases (j - s.length) <;> simp
      simp only [List.count_cons, List.count_append, h3]
      simp
      omega

theorem balanced_block (pre B : List Char) (h1 : '\x7b' ∉ pre) (h2 : '\x7d' ∉ pre)
    (hB : Balanced B) :
    Balanced (pre ++ '\x7b' :: ' ' :: (B ++ [' ', '\x7d', ' '])) ∧
    (pre ++ '\x7b' :: ' ' :: (B ++ [' ', '\x7d', ' '])).count '\x7b' = B.count '\x7b' + 1 := by
  have hsp : Balanced [' '] := balanced_of_braceFree _ (by decide) (by decide)
  have hin : Balanced ([' '] ++ B ++ [' ']) := balanced_append (balanced_append hsp hB) hsp
  have hw := balanced_wrap hin
  have hall := balanced_append (balanced_append (balanced_of_braceFree pre h1 h2) hw) hsp
  have heq : pre ++ '\x7b' :: ' ' :: (B ++ [' ', '\x7d', ' ']) =
      pre ++ '\x7b' :: ([' '] ++ B ++ [' '] ++ ['\x7d']) ++ [' '] := by simp
  rw [heq]
  refine ⟨hall, ?_⟩
  simp [List.count_cons, List.count_append, List.count_eq_zero.mpr h1]

theorem header_data (o a : Bool) :
    ∃ pre : List Char, '\x7b' ∉ pre ∧ '\x7d' ∉ pre ∧
      (GraphPattern.header o a).data = pre ++ ['\x7b', ' '] := by
  cases o <;> cases a
  · exact ⟨[], by decide, by decide, by decide⟩
  · exact ⟨"UNION ".data, by decide, by decide, by decide⟩
  · exact ⟨"OPTIONAL ".data, by decide, by decide, by decide⟩
  · exact ⟨"OPTIONAL UNION ".data, by decide, by decide, by decide⟩

theorem block_text_balanced (o a : Bool) (body : String) (hB : Balanced body.data) :
    Balanced (GraphPattern.header o a ++ body ++ " \x7d ").data ∧
    (GraphPattern.header o a ++ body ++ " \x7d ").data.count '\x7b'
      = body.data.count '\x7b' + 1 := by
  obtain ⟨pre, h1, h2, hd⟩ := header_data o a
  have heq : (GraphPattern.header o a ++ body ++ " \x7d ").data =
      pre ++ '\x7b' :: ' ' :: (body.data ++ [' ', '\x7d', ' ']) := by
    simp [String.data_append, hd]
  rw [heq]
  exact balanced_block pre body.data h1 h2 hB

theorem braceFree_iff (text : String) :
    braceFree text = true ↔ '\x7b' ∉ text.data ∧ '\x7d' ∉ text.data := by
  simp [braceFree]

mutual
theorem element_balanced : ∀ e : Element, e.leavesBraceFree = true →
    Balanced e.toString.data ∧ e.toString.data.count '\x7b' = e.patternNodes
  | .triple text, h => by
    have hb := (braceFree_iff text).mp (by simpa [Element.leavesBraceFree] using h)
    exact ⟨balanced_of_braceFree _ hb.1 hb.2, by
      simp [Element.toString, Element.patternNodes, List.count_eq_zero.mpr hb.1]⟩
  | .filter text, h => by
    have hb := (braceFree_iff text).mp (by simpa [Element.leavesBraceFree] using h)
    exact ⟨balanced_of_braceFree _ hb.1 hb.2, by
      simp [Element.toString, Element.patternNodes, List.count_eq_zero.mpr hb.1]⟩
  | .pattern es o a al g, h => by
    have hes := elements_balanced es (by simpa [Element.leavesBraceFree] using h)
    have := block_text_balanced o a _ hes.1
    rw [Element.toString, renderLoop_eq, Element.patternNodes]
    refine ⟨this.1, ?_⟩
    rw [this.2, hes.2]; omega
theorem elements_balanced : ∀ es : List Element, leavesBraceFreeList es = true →
    Balanced (concatAll (es.map
      (fun e => e.toString ++ " " ++ (if e.isTriple then ". " else "")))).data ∧
    (concatAll (es.map
      (fun e => e.toString ++ " " ++ (if e.isTriple then ". " else "")))).data.count '\x7b'
      = patternNodesOfList es
  | [], _ => by
    simp [concatAll, patternNodesOfList]
    exact balanced_of_braceFree [] (by simp) (by simp)
  | e :: es, h => by
    have h2 : e.leavesBraceFree = true ∧ leavesBraceFreeList es = true := by
      simpa [leavesBraceFreeList] using h
    have he := element_balanced e h2.1
    have hes := elements_balanced es h2.2
    have hsep : Balanced (" " ++ (if e.isTriple then ". " else "")).data ∧
        (" " ++ (if e.isTriple then ". " else "")).data.count '\x7b' = 0 := by
      cases e.isTriple
      · exact ⟨balanced_of_braceFree _ (by decide) (by decide), by decide⟩
      · exact ⟨balanced_of_braceFree _ (by decide) (by decide), by decide⟩
    have heq : (concatAll ((e :: es).map
        (fun e => e.toString ++ " " ++ (if e.isTriple then ". " else "")))).data =
        e.toString.data ++ (" " ++ (if e.isTriple then ". " else "")).data ++
        (concatAll (es.map
          (fun e => e.toString ++ " " ++ (if e.isTriple then ". " else "")))).data := by
      simp [concatAll, String.data_append]
    rw [heq]
    refine ⟨balanced_append (balanced_append he.1 hsep.1) hes.1, ?_⟩
    rw [List.count_append, List.count_append, he.2, hsep.2, hes.2, patternNodesOfList]
    omega
end

/-- C20.  For every pattern tree whose leaf texts hold no brace character, the
text of `toString()` has as many opening as closing braces, that number is the
number of pattern nodes of the tree, and no prefix of the text has more closing
than opening braces. -/
theorem toString_balanced_braces (p : GraphPattern) (h : leavesBraceFreeList p.elements = true) :
    p.toString.data.count '\x7b' = p.toString.data.count '\x7d' ∧
    p.toString.data.count '\x7b' = p.patternNodes ∧
    (∀ k : Nat, (p.toString.data.take k).count '\x7d' ≤ (p.toString.data.take k).count '\x7b') := by
  have hes := elements_balanced p.elements h
  have hb := block_text_balanced p.optional p.alternative _ hes.1
  rw [pattern_toString_eq]
  refine ⟨hb.1.1, ?_, hb.1.2⟩
  rw [hb.2, hes.2, GraphPattern.patternNodes]; omega


/-- C11 fails on the code.  For a single value the method `from` reads
`content[i]` with `i` undefined, so `from('<http://example.org/g>')` appends the
clause `FROM undefined`, and with `named` the clause `FROM NAMED undefined`; the
branch for a list appends `FROM <http://example.org/g>`. -/
theorem from_single_value_pushes_undefined :
    (Query.create "e").from_ (.str "<http://example.org/g>") false
      = ((Query.create "e").withDatasetClause ["FROM undefined"], none) ∧
    ((Query.create "e").from_ (.str "<http://example.org/g>") true).1.getDatasetClauses
      = ["FROM NAMED undefined"] ∧
    ((Query.create "e").from_ (.array [.str "<http://example.org/g>"]) false).1.getDatasetClauses
      = ["FROM <http://example.org/g>"] := by
  refine ⟨rfl, ?_, ?_⟩ <;> decide

/-- C17, as stated, fails.  For the number `1e21`, which a template literal
prints as `1e+21`, `limit` appends `LIMIT 1e+21` and not the decimal digits of
the number.  And the error that `order(42)` raises is
`new Error('Input for ORDER must be string but is number.')`, whose message
does not start with `TypeError:`, so it is not of TypeError kind. -/
theorem solution_modifiers_counterexample :
    ((Query.create "e").limit (.num (.other "1e+21" false))).1.config.solutionModifiers
      = ["LIMIT 1e+21"] ∧
    "LIMIT 1e+21" ≠ "LIMIT " ++ toString ((10 : Int) ^ 21) ∧
    ((Query.create "e").order (.num JsNumber.fortyTwo)).2
      = some (.error "Input for ORDER must be string but is number.") ∧
    (Err.error "Input for ORDER must be string but is number.").isTypeErrorKind = false := by
  refine ⟨rfl, ?_, rfl, ?_⟩ <;> decide

/-- C17 (amended).  With `ms` the solution modifiers of a query: `order(s)` for a
string makes them `ms ++ ['ORDER BY ' ++ s]`; `limit(k)` and `offset(k)` for a
number make them `ms ++ ['LIMIT ' ++ text]` and `ms ++ ['OFFSET ' ++ text]`,
where `text` is what a template literal makes of `k`: the decimal digits for a
safe integer, and the rendering of the language for any other number; `order`
with an argument that is no string and `limit` or `offset` with an argument
that is no number raise the error with the message
`Input for ORDER|LIMIT|OFFSET must be string|number but is` and the `typeof` of
the argument, a message that does not start with `TypeError:`, and leave the
query unchanged. -/
theorem solution_modifiers_append (q : Query) :
    (∀ s : String, q.order (.str s) =
      (q.withSolutionModifiers (q.config.solutionModifiers ++ ["ORDER BY " ++ s]), none)) ∧
    (∀ n : JsNumber, q.limit (.num n) =
      (q.withSolutionModifiers (q.config.solutionModifiers ++ ["LIMIT " ++ n.text]), none)) ∧
    (∀ n : JsNumber, q.offset (.num n) =
      (q.withSolutionModifiers (q.config.solutionModifiers ++ ["OFFSET " ++ n.text]), none)) ∧
    (∀ (k : Int) (safe : k.natAbs ≤ 9007199254740991),
      (JsNumber.int k safe).text = toString k) ∧
    (∀ v : Value, (∀ s, v ≠ .str s) →
      q.order v = (q, some (.error ("Input for ORDER must be string but is " ++ v.typeof ++ ".")))) ∧
    (∀ v : Value, (∀ n, v ≠ .num n) →
      q.limit v = (q, some (.error ("Input for LIMIT must be number but is " ++ v.typeof ++ ".")))) ∧
    (∀ v : Value, (∀ n, v ≠ .num n) →
      q.offset v = (q, some (.error ("Input for OFFSET must be number but is " ++ v.typeof ++ ".")))) ∧
    (∀ v : Value,
      (Err.error ("Input for ORDER must be string but is " ++ v.typeof ++ ".")).isTypeErrorKind
        = false ∧
      (Err.error ("Input for LIMIT must be number but is " ++ v.typeof ++ ".")).isTypeErrorKind
        = false ∧
      (Err.error ("Input for OFFSET must be number but is " ++ v.typeof ++ ".")).isTypeErrorKind
        = false) ∧
    q.order (.num JsNumber.fortyTwo)
      = (q, some (.error "Input for ORDER must be string but is number.")) := by
  refine ⟨fun _ => rfl, fun _ => rfl, fun _ => rfl, fun _ _ => rfl, ?_, ?_, ?_, ?_, rfl⟩
  · intro v hv
    cases v <;> first | rfl | exact absurd rfl (hv _)
  · intro v hv
    cases v <;> first | rfl | exact absurd rfl (hv _)
  · intro v hv
    cases v <;> first | rfl | exact absurd rfl (hv _)
  · intro v
    cases v <;> exact ⟨rfl, rfl, rfl⟩

/-- C18.  For every query, `reset()` leaves the transport unchanged and makes
the configuration the empty one; after it `getPrefixes()` is empty,
`getWhereClauseCount()` raises, as no where clause is present, and `toString()`
raises. -/
theorem reset_restores_empty_configuration (C : Collaborators) (q : Query) :
    q.reset.transport = q.transport ∧
    q.reset.config = Config.empty ∧
    q.reset.getPrefixes = [] ∧
    q.reset.config.whereClause = none ∧
    (∃ e, q.reset.getWhereClauseCount = .error e) ∧
    (∃ e, q.reset.toString C = .error e) :=
  ⟨rfl, rfl, rfl, rfl, ⟨_, rfl⟩, ⟨_, rfl⟩⟩

/-! ## Witnesses of the claims C12, C13, C14, C17 and C20 -/

/-- Witness of C12: on the sample query, in which every part is set,
`where(42)` raises and leaves the query as it was. -/
theorem mutator_error_leaves_state_witness :
    (Query.sample.where_ (.num JsNumber.fortyTwo)).2 ≠ none ∧
    (Query.sample.where_ (.num JsNumber.fortyTwo)).1 = Query.sample :=
  ⟨by decide,
    (mutator_error_leaves_state Query.sample).1 (.num JsNumber.fortyTwo) rfl (by decide)⟩

/-- Witness of C13: a pattern built from one string, then a rejected insertion,
an accepted insertion and a removal. -/
theorem allow_list_invariant_witness :
    (Element.triple "a").category ∈ [Category.triple] ∧
    ((GraphPattern.mk [.triple "a"] false false [.triple] false).run
        [.addElement (.obj (.filter "f")) 0, .addElement (.str "b") 0,
          .removeElements 0 1]).allowedTypes = [Category.triple] :=
  ⟨(allow_list_invariant (.array [.str "a"]) false false [.triple]
      (GraphPattern.mk [.triple "a"] false false [.triple] false)
      [.addElement (.obj (.filter "f")) 0, .addElement (.str "b") 0, .removeElements 0 1]
      rfl).1 (.triple "a")
      (by show Element.triple "a" ∈ [Element.triple "a"]; exact List.mem_singleton.mpr rfl),
    (allow_list_invariant (.array [.str "a"]) false false [.triple]
      (GraphPattern.mk [.triple "a"] false false [.triple] false)
      [.addElement (.obj (.filter "f")) 0, .addElement (.str "b") 0, .removeElements 0 1]
      rfl).2.1⟩

/-- Witness of C14: the constructor on the single string `?s ?p ?o`. -/
theorem create_adds_each_input_witness :
    GraphPattern.create (.str "?s ?p ?o") false false [.triple, .filter]
      = (GraphPattern.emptyWith false false [.triple, .filter]).addEach [.str "?s ?p ?o"] :=
  (create_adds_each_input false false [.triple, .filter]).2.1 (.str "?s ?p ?o")
    (.triple "?s ?p ?o") rfl (by simp)

/-- Witness of C17: on the sample query `limit('10')`, with a string for the
number, raises the error that names the type `string` and leaves the query as
it was. -/
theorem solution_modifiers_append_witness :
    Query.sample.limit (.str "10")
      = (Query.sample, some (.error ("Input for LIMIT must be number but is " ++
          (Value.str "10").typeof ++ "."))) :=
  (solution_modifiers_append Query.sample).2.2.2.2.2.1 (.str "10")
    (by intro n h; cases h)

/-- Witness of C20: a pattern holding a Triple and a nested optional pattern
has two opening braces in its text. -/
theorem toString_balanced_braces_witness :
    (GraphPattern.mk [.triple "?s ?p ?o", .pattern [.filter "FILTER(?o > 1)"] true false
        [.filter] false] false false [.triple, .graphPattern] false).toString.data.count '\x7b'
      = (GraphPattern.mk [.triple "?s ?p ?o", .pattern [.filter "FILTER(?o > 1)"] true false
        [.filter] false] false false [.triple, .graphPattern] false).patternNodes :=
  (toString_balanced_braces
    (GraphPattern.mk [.triple "?s ?p ?o", .pattern [.filter "FILTER(?o > 1)"] true false
        [.filter] false] false false [.triple, .graphPattern] false) (by decide)).2.1

/-! ## Query: the method `where` (C10) -/

/-- C10, as stated, fails where it has `where(v)` append `v` to every existing
where clause.  After `where(p)` for an empty pattern `p` whose allow-list holds
only nested patterns, `where('?s ?p ?o')` raises the error of `addElement` and
appends nothing: the where clause is still the empty `p`. -/
theorem where_rejected_value_counterexample :
    ((Query.create "e").where_
        (.obj (.pattern [] false false [.graphPattern] false))).1.config.whereClause
      = some (GraphPattern.mk [] false false [.graphPattern] false) ∧
    (((Query.create "e").where_ (.obj (.pattern [] false false [.graphPattern] false))).1.where_
        (.str "?s ?p ?o")).2
      = some (.notAllowed (.category .triple)) ∧
    (((Query.create "e").where_ (.obj (.pattern [] false false [.graphPattern] false))).1.where_
        (.str "?s ?p ?o")).1.config.whereClause
      = some (GraphPattern.mk [] false false [.graphPattern] false) := by
  refine ⟨rfl, rfl, rfl⟩

/-- C10 (amended).  The method `where` dispatches on the shape of its argument:
for a pattern object `p` the where clause becomes exactly `p`; for a single
value `v` (a non-empty string, a Triple or a Filter) it creates the default
pattern holding exactly `v` when no where clause exists, and otherwise delegates
to `addElement` of the existing where clause with the default index, which
appends `v` at its end when the category of `v` is in the allow-list of that
where clause, and otherwise raises an error of TypeError kind and leaves the
query unchanged; for a list of single values it leaves the query as the calls
`where(x)` for each `x` in list order do.  In every case base, prefixes, query
form, dataset clauses and solution modifiers are unchanged. -/
theorem where_dispatch (q : Query) :
    (∀ p : GraphPattern, q.where_ (.obj p.toElement) = (q.withWhereClause p, none)) ∧
    (∀ (v : Value) (e : Element), q.config.whereClause = none → v.isSingle = true →
      v.asElement = some e →
      q.where_ v =
        (q.withWhereClause (GraphPattern.mk [e] false false [.triple, .filter] false), none)) ∧
    (∀ (w : GraphPattern) (v : Value), q.config.whereClause = some w → v.isSingle = true →
      q.where_ v = (q.withWhereClause (w.addElement v (-1)).1, (w.addElement v (-1)).2) ∧
      (∀ e : Element, v.asElement = some e → e.category ∈ w.allowedTypes →
        q.where_ v = (q.withWhereClause { w with elements := w.elements ++ [e] }, none)) ∧
      (∀ e : Element, v.asElement = some e → e.category ∉ w.allowedTypes →
        ∃ err, q.where_ v = (q, some err) ∧ err.isTypeErrorKind = true)) ∧
    (∀ xs : List Value, (∀ x ∈ xs, x.isSingle = true) →
      q.where_ (.array xs) = q.whereEach xs) ∧
    (∀ v : Value, q.sameOutsideWhere (q.where_ v).1) := by
  refine ⟨?_, ?_, ?_, ?_, ?_⟩
  · intro p; rfl
  · intro v e hw hs hv
    rw [where_single q v hs]
    unfold Query.addToWhereClause
    rw [hw]
    simp only [create_single v e hs hv]
    rfl
  · intro w v hw hs
    have h1 : q.where_ v =
        (q.withWhereClause (w.addElement v (-1)).1, (w.addElement v (-1)).2) := by
      rw [where_single q v hs]
      unfold Query.addToWhereClause
      rw [hw]
      rfl
    refine ⟨h1, ?_, ?_⟩
    · intro e hv ha
      rw [h1, addElement_default w v e hv ha]
    · intro e hv ha
      refine ⟨.notAllowed (.category e.category), ?_, rfl⟩
      rw [h1, addElement_rejected w v e (-1) hv ha]
      exact congrArg (fun r => (r, some (Err.notAllowed (.category e.category))))
        (withWhereClause_self q w hw)
  · intro xs h
    exact where_array_eq_each q xs h
  · intro v
    exact where_frame q v

/-- Witness of C10: on the sample query, whose where clause allows Triples,
`where('?x ?y ?z')` appends that Triple after the two elements present. -/
theorem where_dispatch_witness :
    Query.sample.where_ (.str "?x ?y ?z") =
      (Query.sample.withWhereClause
        (GraphPattern.mk [.triple "?s ?p ?o", .filter "FILTER(?o > 1)", .triple "?x ?y ?z"]
          false false [.triple, .filter] false), none) :=
  ((where_dispatch Query.sample).2.2.1
    (GraphPattern.mk [.triple "?s ?p ?o", .filter "FILTER(?o > 1)"] false false
      [.triple, .filter] false)
    (.str "?x ?y ?z") rfl (by decide)).2.1 (.triple "?x ?y ?z") rfl (by decide)

end Sparql
